import Mathlib

/-!
Verification development for the Media-Processor repository
(`src/python_core`): a shallow embedding, over `List Char` and `String`,
of the filename-based language detector
(`modules/media/detector.py`), the movie-title cleaning function
`MediaProcessor._clean_filename_basic`, the series/episode extractor
`MediaProcessor._extract_series_name_and_episode`, the track-selection
logic of `MediaProcessor._extract_preferred_tracks`, the
transfer/cleanup tail of `MediaProcessor.process_file`
(`media_processor.py`), and the season-folder unifier
(`modules/media/season_unifier.py` with its `season_folders` store from
`modules/database/media_database.py`).

Python regular expressions used by the source are hand-compiled to
deterministic scanners over `List Char`, reproducing leftmost-match,
greedy/lazy repetition with the backtracking the concrete patterns can
actually exercise, `IGNORECASE`, and `\b` word boundaries (ASCII; all
inputs of interest are ASCII).  Global substitution (`re.sub`) is
implemented with an explicit fuel argument (the scanned list's length
suffices, since every pattern of the source matches at least one
character); matching always happens against the not-yet-rewritten rest
of the string, as in Python.
-/

/-- ASCII lower-casing of one character, as `str.lower` acts on the
ASCII inputs handled by the processor. -/
def lowerC (c : Char) : Char :=
  if 'A' ≤ c ∧ c ≤ 'Z' then Char.ofNat (c.toNat + 32) else c

/-- Lower-case a character list. -/
def lowerL (s : List Char) : List Char := s.map lowerC

/-- Word character for `\w` and `\b` (Python's ASCII `[A-Za-z0-9_]`). -/
def isWordC (c : Char) : Bool :=
  ('a' ≤ c && c ≤ 'z') || ('A' ≤ c && c ≤ 'Z') || ('0' ≤ c && c ≤ '9') || c = '_'

/-- Decimal digit, `\d`. -/
def isDigitC (c : Char) : Bool := '0' ≤ c && c ≤ '9'

/-- Python `\s` (and `str.strip`) whitespace, ASCII. -/
def isSpaceC (c : Char) : Bool :=
  c = ' ' || c = '\t' || c = '\n' || c = '\r' || c = Char.ofNat 11 || c = Char.ofNat 12

/-- ASCII letter (`[a-z]` under `IGNORECASE`). -/
def isAlphaC (c : Char) : Bool :=
  ('a' ≤ c && c ≤ 'z') || ('A' ≤ c && c ≤ 'Z')

/-- Class `[\s._]` used by the torrent-site patterns. -/
def isSdotU (c : Char) : Bool := isSpaceC c || c = '.' || c = '_'

/-- Class `[\s.]` used by the torrent-site patterns. -/
def isSdot (c : Char) : Bool := isSpaceC c || c = '.'

/-- Class `[\s._-]` used by the series-name trailing cleanup. -/
def isSdotUDash (c : Char) : Bool := isSdotU c || c = '-'

/-- `p` is a prefix of `s` (character-exact). -/
def isPrefOf : List Char → List Char → Bool
  | [], _ => true
  | _ :: _, [] => false
  | a :: p, b :: s => a = b && isPrefOf p s

/-- Python's `pat in s` substring test (character-exact). -/
def containsSub (pat : List Char) : List Char → Bool
  | [] => isPrefOf pat []
  | c :: t => isPrefOf pat (c :: t) || containsSub pat t

/-- Leftmost start index of exact substring `pat` in `s` (`str.find`). -/
def findSubIdx (pat : List Char) : List Char → Option Nat
  | [] => if isPrefOf pat [] then some 0 else none
  | c :: t =>
    if isPrefOf pat (c :: t) then some 0
    else (findSubIdx pat t).map (· + 1)

/-- Case-insensitive literal match: consume `pat` (given lower-case)
from the head of `s`, returning the rest. -/
def dropLitI : List Char → List Char → Option (List Char)
  | [], s => some s
  | _ :: _, [] => none
  | p :: ps, c :: cs => if lowerC c = lowerC p then dropLitI ps cs else none

/-- Consume the maximal run of characters satisfying `p` (a greedy
`X*` whose follower is disjoint from `X`). -/
def dropRun (p : Char → Bool) : List Char → List Char
  | [] => []
  | c :: cs => if p c then dropRun p cs else c :: cs

/-- Length of the maximal run of characters satisfying `p`. -/
def runLen (p : Char → Bool) : List Char → Nat
  | [] => 0
  | c :: cs => if p c then runLen p cs + 1 else 0

/-- Greedy `X+`: at least one character of the class, maximal run. -/
def dropPlus (p : Char → Bool) : List Char → Option (List Char)
  | [] => none
  | c :: cs => if p c then some (dropRun p cs) else none

/-- Consume one character equal (case-insensitively) to `c`. -/
def dropChr (c : Char) : List Char → Option (List Char)
  | [] => none
  | x :: xs => if lowerC x = lowerC c then some xs else none

/-- Consume one character belonging to `cs` (an explicit class like
`[Ss]`). -/
def dropOneOf (cs : List Char) : List Char → Option (List Char)
  | [] => none
  | x :: xs => if cs.contains x then some xs else none

/-- Word-status of an optional character; a string edge counts as
non-word for `\b`. -/
def wordAt : Option Char → Bool
  | none => false
  | some c => isWordC c

/-- `\b` at the position between context character `a` and next
character `b`. -/
def isBoundary (a b : Option Char) : Bool := wordAt a != wordAt b

/-- `\b` at the start of suffix `s`, with `prev` the character just
before it in the whole string. -/
def startBoundary (prev : Option Char) (s : List Char) : Bool :=
  isBoundary prev s.head?

/-- `\b` between the already-consumed part (whose last character is
`lastc`) and the rest `r`. -/
def endBoundary (lastc : Option Char) (r : List Char) : Bool :=
  isBoundary lastc r.head?

/-- Last character of the first `len` characters of `s`, as the `\b`
context for a scan continuing after a match. -/
def lastOfTaken (prev : Option Char) (s : List Char) (len : Nat) : Option Char :=
  match (s.take len).getLast? with
  | some c => some c
  | none => prev

/-- Generic leftmost-match scan: try the position matcher `tryAt`
(receiving the previous character for `\b` context) at every position
of `s`, left to right, returning match position and length. -/
def scanFind (tryAt : Option Char → List Char → Option Nat) :
    Option Char → Nat → List Char → Option (Nat × Nat)
  | prev, i, s =>
    match tryAt prev s with
    | some len => some (i, len)
    | none =>
      match s with
      | [] => none
      | c :: t => scanFind tryAt (some c) (i + 1) t

/-- `re.sub(pat, repl, s)` for patterns that never match the empty
string: replace every non-overlapping leftmost match, scanning the
original text (the replacement is not rescanned).  `fuel` bounds the
number of replacements; `s.length` always suffices. -/
def subAll (tryAt : Option Char → List Char → Option Nat) (repl : List Char) :
    Nat → Option Char → List Char → List Char
  | 0, _, s => s
  | fuel + 1, prev, s =>
    match scanFind tryAt prev 0 s with
    | none => s
    | some (i, len) =>
      s.take i ++ repl ++
        subAll tryAt repl fuel (lastOfTaken prev s (i + len)) (s.drop (i + len))

/-- One-shot `re.sub` for patterns anchored so that at most one match
exists: delete the leftmost match. -/
def subFirst (tryAt : Option Char → List Char → Option Nat)
    (s : List Char) : List Char :=
  match scanFind tryAt none 0 s with
  | none => s
  | some (i, len) => s.take i ++ s.drop (i + len)

/-- `str.strip()` (ASCII whitespace). -/
def stripWs (s : List Char) : List Char :=
  ((s.dropWhile (fun c => isSpaceC c)).reverse.dropWhile (fun c => isSpaceC c)).reverse

/-- `re.sub(r'\s+', ' ', s)`: collapse every whitespace run to one
space. -/
def collapseWs : List Char → List Char
  | [] => []
  | c :: t =>
    if isSpaceC c then
      match collapseWs t with
      | d :: u => if isSpaceC d then d :: u else ' ' :: d :: u
      | [] => [' ']
    else c :: collapseWs t

/-- `re.sub(r'\s+', ' ', s).strip()`. -/
def collapseStrip (s : List Char) : List Char := stripWs (collapseWs s)

/-- `s.replace(a, b)` for single characters. -/
def mapChar (a b : Char) (s : List Char) : List Char :=
  s.map fun c => if c = a then b else c

/-- `s.replace(pat, repl)` (exact, all occurrences); an empty `pat`
with empty `repl` is the identity, as in Python. -/
def replaceAllGo (pat repl : List Char) : Nat → List Char → List Char
  | 0, s => s
  | fuel + 1, s =>
    match findSubIdx pat s with
    | none => s
    | some i => s.take i ++ repl ++ replaceAllGo pat repl fuel (s.drop (i + pat.length))

/-- `s.replace(pat, repl)` wrapper. -/
def replaceAll (pat repl s : List Char) : List Char :=
  if pat = [] then s else replaceAllGo pat repl (s.length + 1) s

/-- Last index of character `c` in `s`. -/
def lastIdxOf (c : Char) : List Char → Option Nat
  | [] => none
  | a :: t =>
    match lastIdxOf c t with
    | some i => some (i + 1)
    | none => if a = c then some 0 else none

/-- `os.path.splitext` on a bare file name: split at the last dot,
unless every character before that dot is itself a dot. -/
def splitExt (s : List Char) : List Char × List Char :=
  match lastIdxOf '.' s with
  | none => (s, [])
  | some i =>
    if (s.take i).all (fun c => c = '.') then (s, [])
    else (s.take i, s.drop i)

/-- First index of character `c` in `s`. -/
def firstIdxOf (c : Char) : List Char → Option Nat
  | [] => none
  | a :: t => if a = c then some 0 else (firstIdxOf c t).map (· + 1)

/-- Try a list of parsers in order, returning the first success
(regex alternation order). -/
def firstSome {α : Type} : List (Option α) → Option α
  | [] => none
  | some a :: _ => some a
  | none :: t => firstSome t

/-! ## Language detection from filenames
(`MediaDetector.detect_language_from_filename`, detector.py lines
87-137, with the indicator lists of `MediaDetector.__init__`, lines
49-63). -/

/-- `re.search(r'\b' + ind + r'\b', s)` for an indicator word `ind`
made of word characters: some occurrence of `ind` with `\b` on both
sides. -/
def wordBoundHitGo (ind : List Char) : Option Char → List Char → Bool
  | prev, s =>
    (startBoundary prev s &&
      (match dropLitI ind s with
       | some rest => endBoundary ((s.take ind.length).getLast?) rest
       | none => false)) ||
    (match s with
     | [] => false
     | c :: t => wordBoundHitGo ind (some c) t)

/-- Word-boundary search wrapper. -/
def wordBoundHit (ind s : List Char) : Bool := wordBoundHitGo ind none s

/-- `malayalam_indicators` of `MediaDetector.__init__` — note the
trailing single-letter entries `'m'` and `'M'` present in the source. -/
def malayalamIndicators : List String :=
  ["malayalam", "mal", "ml", "kerala", "mollywood", "malayalee", "malayali", "m", "M"]

/-- `english_indicators`. -/
def englishIndicators : List String :=
  ["english", "eng", "en", "hollywood", "usa", "uk"]

/-- `hindi_indicators`. -/
def hindiIndicators : List String :=
  ["hindi", "hin", "hi", "bollywood", "multi", "multilang", "dual", "all lang"]

/-- `regional_indicators`. -/
def regionalIndicators : List String :=
  ["telugu", "tel", "tamil", "tam", "kannada", "kan", "kollywood", "tollywood", "sandalwood"]

/-- One indicator test of the detector's loops: indicators listed in
`shorts` get a word-boundary regex search, all others a plain substring
test, against the lower-cased filename. -/
def indicatorHit (shorts : List String) (ind : String) (fl : List Char) : Bool :=
  if shorts.contains ind then wordBoundHit ind.data fl
  else containsSub ind.data fl

/-- Priority-1 test: some Malayalam indicator matches (each loop
iteration returns the same value, so the loop is the disjunction over
the list). -/
def malayalamHit (fl : List Char) : Bool :=
  malayalamIndicators.any fun i => indicatorHit ["mal", "ml"] i fl

/-- Priority-2 test (Hindi/Bollywood/multi-language indicators). -/
def hindiHit (fl : List Char) : Bool :=
  hindiIndicators.any fun i => indicatorHit ["hin", "hi"] i fl

/-- Priority-3 test (English indicators). -/
def englishHit (fl : List Char) : Bool :=
  englishIndicators.any fun i => indicatorHit ["eng", "en"] i fl

/-- Priority-4 test (regional-language indicators). -/
def regionalHit (fl : List Char) : Bool :=
  regionalIndicators.any fun i => indicatorHit ["tel", "tam", "kan"] i fl

/-- `MediaDetector.detect_language_from_filename`: the four priority
rules in order, defaulting to the Malayalam bucket. -/
def detectLanguageFromFilename (filename : String) : String :=
  let fl := lowerL filename.data
  if malayalamHit fl then "malayalam"
  else if hindiHit fl then "bollywood"
  else if englishHit fl then "english"
  else if regionalHit fl then "malayalam"
  else "malayalam"

/-! ## Movie-title cleaning
(`MediaProcessor._clean_filename_basic`, media_processor.py lines
344-471).  Each named definition embeds one regex or step of the
source, in source order. -/

/-- Shorthand for a pattern literal. -/
def strL (s : String) : List Char := s.data

/-- `^sanet[\s._]*st[\s._]*`. -/
def siteSanetSt (s : List Char) : Option (List Char) :=
  (dropLitI (strL "sanet") s).bind fun r1 =>
  (dropLitI (strL "st") (dropRun isSdotU r1)).map fun r3 =>
  dropRun isSdotU r3

/-- `^sanet[\s._]*\w*[\s._]*-?[\s._]*` (everything after `sanet` is
optional, so the match is the maximal greedy munch). -/
def siteSanetAny (s : List Char) : Option (List Char) :=
  (dropLitI (strL "sanet") s).map fun r1 =>
  let r4 := dropRun isSdotU (dropRun isWordC (dropRun isSdotU r1))
  let r5 := match r4 with
    | '-' :: t => t
    | _ => r4
  dropRun isSdotU r5

/-- `^www[\s.]*\d*\s*tamilmv[\s.]*\w*\s*-\s*`. -/
def siteTamilWww (s : List Char) : Option (List Char) :=
  (dropLitI (strL "www") s).bind fun r1 =>
  let r2 := dropRun isSpaceC (dropRun isDigitC (dropRun isSdot r1))
  (dropLitI (strL "tamilmv") r2).bind fun r3 =>
  let r4 := dropRun isSpaceC (dropRun isWordC (dropRun isSdot r3))
  (dropChr '-' r4).map (dropRun isSpaceC)

/-- `^www\s+\d+tamilmv\s+org\s*-\s*`. -/
def siteTamilOrg (s : List Char) : Option (List Char) :=
  (dropLitI (strL "www") s).bind fun r1 =>
  (dropPlus isSpaceC r1).bind fun r2 =>
  (dropPlus isDigitC r2).bind fun r3 =>
  (dropLitI (strL "tamilmv") r3).bind fun r4 =>
  (dropPlus isSpaceC r4).bind fun r5 =>
  (dropLitI (strL "org") r5).bind fun r6 =>
  (dropChr '-' (dropRun isSpaceC r6)).map (dropRun isSpaceC)

/-- `^\d*\s*tamilmv[\s.]*\w*\s*-\s*`. -/
def siteTamilBare (s : List Char) : Option (List Char) :=
  let r1 := dropRun isSpaceC (dropRun isDigitC s)
  (dropLitI (strL "tamilmv") r1).bind fun r2 =>
  let r3 := dropRun isSpaceC (dropRun isWordC (dropRun isSdot r2))
  (dropChr '-' r3).map (dropRun isSpaceC)

/-- `^www\.\w+\.\w+\s*-\s*`. -/
def siteWwwDots (s : List Char) : Option (List Char) :=
  (dropLitI (strL "www") s).bind fun r1 =>
  (dropChr '.' r1).bind fun r2 =>
  (dropPlus isWordC r2).bind fun r3 =>
  (dropChr '.' r3).bind fun r4 =>
  (dropPlus isWordC r4).bind fun r5 =>
  (dropChr '-' (dropRun isSpaceC r5)).map (dropRun isSpaceC)

/-- `^www\s+\w+\s+\w+\s*-\s*`. -/
def siteWwwWords (s : List Char) : Option (List Char) :=
  (dropLitI (strL "www") s).bind fun r1 =>
  (dropPlus isSpaceC r1).bind fun r2 =>
  (dropPlus isWordC r2).bind fun r3 =>
  (dropPlus isSpaceC r3).bind fun r4 =>
  (dropPlus isWordC r4).bind fun r5 =>
  (dropChr '-' (dropRun isSpaceC r5)).map (dropRun isSpaceC)

/-- Alternation `(?:w1|w2|...)` of site keywords, in pattern order. -/
def trySiteWords (sites : List String) (s : List Char) : Option (List Char) :=
  firstSome (sites.map fun w => dropLitI w.data s)

/-- `\w*(?:site...)` with the greedy backtracking Python performs:
prefer the longest `\w*`, shrinking until a site keyword matches. -/
def wstarSite (sites : List String) : List Char → Option (List Char)
  | [] => trySiteWords sites []
  | c :: t =>
    if isWordC c then
      match wstarSite sites t with
      | some r => some r
      | none => trySiteWords sites (c :: t)
    else trySiteWords sites (c :: t)

/-- `^\[\s*(?:www[\s.]*)?\w*(?:sites)[\s.]*\w*\s*\]\s*`, with the
optional `www` group tried first and given up on failure. -/
def siteBracket (sites : List String) (s : List Char) : Option (List Char) :=
  (dropChr '[' s).bind fun r1 =>
  let r2 := dropRun isSpaceC r1
  let tryFrom := fun (r : List Char) =>
    (wstarSite sites r).bind fun r3 =>
    let r4 := dropRun isSpaceC (dropRun isWordC (dropRun isSdot r3))
    (dropChr ']' r4).map (dropRun isSpaceC)
  match (dropLitI (strL "www") r2).map (dropRun isSdot) with
  | some r =>
    (match tryFrom r with
     | some res => some res
     | none => tryFrom r2)
  | none => tryFrom r2

/-- `^\[?(rarbg|yts|1337x|torrentz|kickass)\]?[\s._]*-?\s*`. -/
def siteNamed (s : List Char) : Option (List Char) :=
  let go := fun (r : List Char) =>
    (trySiteWords ["rarbg", "yts", "1337x", "torrentz", "kickass"] r).map fun r2 =>
    let r3 := match r2 with
      | ']' :: t => t
      | _ => r2
    let r4 := dropRun isSdotU r3
    let r5 := match r4 with
      | '-' :: t => t
      | _ => r4
    dropRun isSpaceC r5
  match s with
  | '[' :: t =>
    (match go t with
     | some res => some res
     | none => go s)
  | _ => go s

/-- Apply one anchored site pattern as `re.sub(pat, '', s)`. -/
def applySite (m : List Char → Option (List Char)) (s : List Char) : List Char :=
  match m s with
  | some r => r
  | none => s

/-- The nine `torrent_site_patterns` substitutions, in source order. -/
def stripSiteTags (s : List Char) : List Char :=
  applySite siteNamed (applySite (siteBracket ["tamilmv", "sanet", "rarbg", "yts"])
    (applySite siteWwwWords (applySite siteWwwDots (applySite siteTamilBare
      (applySite siteTamilOrg (applySite siteTamilWww (applySite siteSanetAny
        (applySite siteSanetSt s))))))))

/-- `\((\d{4})\)` at the current position, returning the digits. -/
def parenYearTry : List Char → Option (List Char)
  | '(' :: a :: b :: c :: d :: ')' :: _ =>
    if isDigitC a && isDigitC b && isDigitC c && isDigitC d then some [a, b, c, d] else none
  | _ => none

/-- Leftmost `\((\d{4})\)`. -/
def parenYearFind : List Char → Option (List Char)
  | [] => none
  | c :: t =>
    match parenYearTry (c :: t) with
    | some y => some y
    | none => parenYearFind t

/-- `\b(\d{4})\b` at the current position. -/
def bareYearTry (prev : Option Char) : List Char → Option (List Char)
  | a :: b :: c :: d :: r =>
    if !wordAt prev && isDigitC a && isDigitC b && isDigitC c && isDigitC d && !wordAt r.head?
    then some [a, b, c, d] else none
  | _ => none

/-- Leftmost `\b(\d{4})\b`. -/
def bareYearFind : Option Char → List Char → Option (List Char)
  | prev, s =>
    match bareYearTry prev s with
    | some y => some y
    | none =>
      match s with
      | [] => none
      | c :: t => bareYearFind (some c) t

/-- Year extraction of `_clean_filename_basic`: parenthesized year
first, then bare 4-digit token. -/
def yearOf (s : List Char) : Option (List Char) :=
  match parenYearFind s with
  | some y => some y
  | none => bareYearFind none s

/-- Length consumed between a start list and the rest after parsing. -/
def lenFrom (s rest : List Char) : Nat := s.length - rest.length

/-- The quality keywords of the `title_separators` alternation, in
pattern order. -/
def qualWords : List String :=
  ["web-dl", "bluray", "hdrip", "dvdrip", "brrip", "webrip", "hdcam", "cam", "ts"]

/-- Quality-word alternation. -/
def qualTry (s : List Char) : Option (List Char) :=
  trySiteWords qualWords s

/-- `(?:WORD\s+)?` then `quals`, with Python's give-up-the-optional
backtracking. -/
def optThenQual (w : String) (quals : List Char → Option (List Char))
    (s : List Char) : Option (List Char) :=
  match ((dropLitI w.data s).bind (dropPlus isSpaceC)).bind quals with
  | some r => some r
  | none => quals s

/-- `\s*-\s*(?:TRUE\s+)?(?:quality words)`. -/
def sep1At (_ : Option Char) (s : List Char) : Option Nat :=
  ((dropChr '-' (dropRun isSpaceC s)).bind fun r2 =>
    optThenQual "true" qualTry (dropRun isSpaceC r2)).map (lenFrom s)

/-- `\s+(?:TRUE\s+)?(?:quality words)`. -/
def sep2At (_ : Option Char) (s : List Char) : Option Nat :=
  ((dropPlus isSpaceC s).bind (optThenQual "true" qualTry)).map (lenFrom s)

/-- `\s*-\s*\d+p`. -/
def sep3At (_ : Option Char) (s : List Char) : Option Nat :=
  ((dropChr '-' (dropRun isSpaceC s)).bind fun r2 =>
    (dropPlus isDigitC (dropRun isSpaceC r2)).bind (dropChr 'p')).map (lenFrom s)

/-- `\s+\d+p`. -/
def sep4At (_ : Option Char) (s : List Char) : Option Nat :=
  (((dropPlus isSpaceC s).bind (dropPlus isDigitC)).bind (dropChr 'p')).map (lenFrom s)

/-- `(?:WEB-DL|BluRay)`. -/
def qualWB (s : List Char) : Option (List Char) :=
  trySiteWords ["web-dl", "bluray"] s

/-- `\s*-\s*(?:MAX\s+)?(?:WEB-DL|BluRay)`. -/
def sep5At (_ : Option Char) (s : List Char) : Option Nat :=
  ((dropChr '-' (dropRun isSpaceC s)).bind fun r2 =>
    optThenQual "max" qualWB (dropRun isSpaceC r2)).map (lenFrom s)

/-- `\s+(?:MAX\s+)?(?:WEB-DL|BluRay)`. -/
def sep6At (_ : Option Char) (s : List Char) : Option Nat :=
  ((dropPlus isSpaceC s).bind (optThenQual "max" qualWB)).map (lenFrom s)

/-- The `title_separators` loop: first listed pattern with a match
anywhere wins; cut before its start and strip. -/
def sepCut (s : List Char) : List Char :=
  match firstSome ([sep1At, sep2At, sep3At, sep4At, sep5At, sep6At].map
      fun m => scanFind m none 0 s) with
  | some (i, _) => stripWs (s.take i)
  | none => s

/-- `\s*-\s*[A-Z]{2,}$` (with `IGNORECASE`). -/
def rel1At (_ : Option Char) (s : List Char) : Option Nat :=
  match dropChr '-' (dropRun isSpaceC s) with
  | some r2 =>
    let r3 := dropRun isSpaceC r2
    if r3.length ≥ 2 && r3.all isAlphaC then some s.length else none
  | none => none

/-- `\s*\[[A-Z0-9]{2,}\]$`. -/
def rel2At (_ : Option Char) (s : List Char) : Option Nat :=
  match dropChr '[' (dropRun isSpaceC s) with
  | some r2 =>
    let run := r2.takeWhile fun c => isAlphaC c || isDigitC c
    if run.length ≥ 2 && r2.drop run.length = [']'] then some s.length else none
  | none => none

/-- `\s*\([A-Z0-9]{2,}\)$`. -/
def rel3At (_ : Option Char) (s : List Char) : Option Nat :=
  match dropChr '(' (dropRun isSpaceC s) with
  | some r2 =>
    let run := r2.takeWhile fun c => isAlphaC c || isDigitC c
    if run.length ≥ 2 && r2.drop run.length = [')'] then some s.length else none
  | none => none

/-- `\s*-\s*[A-Za-z0-9]{3,}$`. -/
def rel4At (_ : Option Char) (s : List Char) : Option Nat :=
  match dropChr '-' (dropRun isSpaceC s) with
  | some r2 =>
    let r3 := dropRun isSpaceC r2
    if r3.length ≥ 3 && r3.all (fun c => isAlphaC c || isDigitC c) then some s.length else none
  | none => none

/-- The four `release_group_patterns` substitutions, in order (each is
end-anchored, so deletes at most one leftmost suffix match). -/
def relSteps (s : List Char) : List Char :=
  subFirst rel4At (subFirst rel3At (subFirst rel2At (subFirst rel1At s)))

/-- `\[.*?\]`: from a `[`, lazily to the first later `]`. -/
def junkBracketAt (_ : Option Char) (s : List Char) : Option Nat :=
  match s with
  | '[' :: t => (firstIdxOf ']' t).map fun j => j + 2
  | _ => none

/-- `\bWORD\b` for a literal keyword of word characters. -/
def litWordAt (w : String) (prev : Option Char) (s : List Char) : Option Nat :=
  if startBoundary prev s then
    match dropLitI w.data s with
    | some rest =>
      if endBoundary ((s.take w.data.length).getLast?) rest then some w.data.length else none
    | none => none
  else none

/-- One alternation branch followed by the shared trailing `\b`. -/
def branchWb (s : List Char) (rest : Option (List Char)) : Option Nat :=
  match rest with
  | some r =>
    if endBoundary ((s.take (lenFrom s r)).getLast?) r then some (lenFrom s r) else none
  | none => none

/-- `\b(x264|x265|AVC|HEVC|H\s*264|H\s*265)\b`, branches in pattern
order, each branch retried when the trailing `\b` fails. -/
def junkCodecAt (prev : Option Char) (s : List Char) : Option Nat :=
  if !startBoundary prev s then none else
  firstSome [
    branchWb s (dropLitI (strL "x264") s),
    branchWb s (dropLitI (strL "x265") s),
    branchWb s (dropLitI (strL "avc") s),
    branchWb s (dropLitI (strL "hevc") s),
    branchWb s (((dropChr 'h' s).map (dropRun isSpaceC)).bind (dropLitI (strL "264"))),
    branchWb s (((dropChr 'h' s).map (dropRun isSpaceC)).bind (dropLitI (strL "265")))]

/-- Class `[\d.]`. -/
def isDigDot (c : Char) : Bool := isDigitC c || c = '.'

/-- Greedy `[\d.]+` with a trailing `\b`: Python shrinks the run from
maximal length until the boundary holds (a run ending in `.` needs a
word character next; one ending in a digit needs a non-word next).
Returns the number of characters kept, at least one. -/
def digDotBack (s : List Char) : Nat → Option Nat
  | 0 => none
  | k + 1 =>
    if endBoundary ((s.take (k + 1)).getLast?) (s.drop (k + 1)) then some (k + 1)
    else digDotBack s k

/-- `[\d.]+\b` starting at `s`. -/
def digDotPlusB (s : List Char) : Option Nat :=
  digDotBack s (runLen isDigDot s)

/-- `\b(DD\+?[\d.]+|DTS|AAC|DDP\s*[\d.]+)\b`, branches in pattern
order. -/
def junkAudioAt (prev : Option Char) (s : List Char) : Option Nat :=
  if !startBoundary prev s then none else
  firstSome [
    (dropLitI (strL "dd") s).bind (fun r1 =>
      let r2 := match r1 with
        | '+' :: t => t
        | _ => r1
      (digDotPlusB r2).map fun k => lenFrom s r2 + k),
    branchWb s (dropLitI (strL "dts") s),
    branchWb s (dropLitI (strL "aac") s),
    (dropLitI (strL "ddp") s).bind (fun r1 =>
      let r2 := dropRun isSpaceC r1
      (digDotPlusB r2).map fun k => lenFrom s r2 + k)]

/-- `\b\d+Kbps\b`. -/
def junkKbpsAt (prev : Option Char) (s : List Char) : Option Nat :=
  if !startBoundary prev s then none else
  branchWb s ((dropPlus isDigitC s).bind (dropLitI (strL "kbps")))

/-- `\b\d+\.?\d*GB\b` (if the optional dot is taken and fails, the
dot-free attempt must fail too, since `GB` cannot start at a dot). -/
def junkGbAt (prev : Option Char) (s : List Char) : Option Nat :=
  if !startBoundary prev s then none else
  branchWb s ((dropPlus isDigitC s).bind fun r1 =>
    let r2 := match r1 with
      | '.' :: t => dropRun isDigitC t
      | _ => r1
    dropLitI (strL "gb") r2)

/-- `\bWEB\s*-?\s*DL\b`. -/
def junkWebDlAt (prev : Option Char) (s : List Char) : Option Nat :=
  if !startBoundary prev s then none else
  branchWb s ((dropLitI (strL "web") s).bind fun r1 =>
    let r2 := dropRun isSpaceC r1
    let r3 := match r2 with
      | '-' :: t => dropRun isSpaceC t
      | _ => r2
    dropLitI (strL "dl") r3)

/-- Start positions of every `\bYEAR\b` occurrence. -/
def yearHitsGo (y : List Char) : Option Char → Nat → List Char → List Nat
  | prev, i, s =>
    let here :=
      if startBoundary prev s then
        match dropLitI y s with
        | some rest =>
          if endBoundary ((s.take y.length).getLast?) rest then [i] else []
        | none => []
      else []
    match s with
    | [] => here
    | c :: t => here ++ yearHitsGo y (some c) (i + 1) t

/-- `re.sub(rf'\b{year}\b.*\b{year}\b', ' ', s)`: with two or more
boundary occurrences of the year, the greedy `.*` spans from the first
to the last; otherwise no match. -/
def dupYearStep (y : List Char) (s : List Char) : List Char :=
  match yearHitsGo y none 0 s with
  | p1 :: p2 :: rest =>
    let plast := ((p2 :: rest).reverse).headD p2
    s.take p1 ++ [' '] ++ s.drop (plast + y.length)
  | _ => s

/-- Trailing `[\s.]*\w*\b` of the tamilmv/sanet junk patterns: Python
shrinks the greedy `[\s.]*` run (then takes the maximal `\w*`) until
the final `\b` holds.  `pre` is the word-status context when nothing is
consumed. -/
def tailWb (pre : Char) (s : List Char) : Nat → Option Nat
  | 0 =>
    let stop := runLen isWordC s
    let lastc := ((s.take stop).getLast?).getD pre
    if isBoundary (some lastc) ((s.drop stop).head?) then some stop else none
  | k + 1 =>
    let stop := k + 1 + runLen isWordC (s.drop (k + 1))
    let lastc := ((s.take stop).getLast?).getD pre
    if isBoundary (some lastc) ((s.drop stop).head?) then some stop
    else tailWb pre s k

/-- `\b\d*\s*tamilmv[\s.]*\w*\b`. -/
def junkTamilAt (prev : Option Char) (s : List Char) : Option Nat :=
  if !startBoundary prev s then none else
  let r1 := dropRun isSpaceC (dropRun isDigitC s)
  (dropLitI (strL "tamilmv") r1).bind fun r2 =>
  (tailWb 'v' r2 (runLen isSdot r2)).map fun k => lenFrom s r2 + k

/-- `\bsanet[\s.]*\w*\b`. -/
def junkSanetAt (prev : Option Char) (s : List Char) : Option Nat :=
  if !startBoundary prev s then none else
  (dropLitI (strL "sanet") s).bind fun r2 =>
  (tailWb 't' r2 (runLen isSdot r2)).map fun k => lenFrom s r2 + k

/-- `\s+-\s+.*$`: everything from a space-hyphen-space on. -/
def junkDashAt (_ : Option Char) (s : List Char) : Option Nat :=
  (((dropPlus isSpaceC s).bind (dropChr '-')).bind (dropPlus isSpaceC)).map fun _ => s.length

/-- One global junk substitution by a single space. -/
def junkSub (m : Option Char → List Char → Option Nat) (s : List Char) : List Char :=
  subAll m [' '] (s.length + 1) none s

/-- The duplicate-year substitution exists only when a year was
extracted (the `never_match_this_pattern` placeholder is skipped). -/
def dupYearOpt (yv : Option (List Char)) (s : List Char) : List Char :=
  match yv with
  | some y => dupYearStep y s
  | none => s

/-- The `junk_patterns` substitutions of `_clean_filename_basic`, in
source order. -/
def junkSteps (yv : Option (List Char)) (s : List Char) : List Char :=
  junkSub junkDashAt (junkSub junkSanetAt (junkSub junkTamilAt (dupYearOpt yv
    (junkSub (litWordAt "max") (junkSub (litWordAt "hdrip") (junkSub (litWordAt "bluray")
      (junkSub junkWebDlAt (junkSub (litWordAt "esub") (junkSub junkGbAt
        (junkSub junkKbpsAt (junkSub junkAudioAt (junkSub junkCodecAt
          (junkSub (litWordAt "hq") (junkSub junkBracketAt s))))))))))))))

/-- `\((?!\d{4})[^)]*\)`: an opening paren not directly followed by
four digits, up to the nearest closing paren. -/
def parenAt (_ : Option Char) (s : List Char) : Option Nat :=
  match s with
  | '(' :: t =>
    let year4 := match t with
      | a :: b :: c :: d :: _ => isDigitC a && isDigitC b && isDigitC c && isDigitC d
      | _ => false
    if year4 then none
    else (firstIdxOf ')' t).map fun j => j + 2
  | _ => none

/-- Global removal of non-year parentheticals. -/
def parenStep (s : List Char) : List Char :=
  subAll parenAt [] (s.length + 1) none s

/-- `[_]{2,}` (or `[.]{2,}`) run of at least two, replaced by one
space. -/
def runAt (ch : Char) (_ : Option Char) (s : List Char) : Option Nat :=
  match s with
  | a :: b :: t => if a = ch && b = ch then some (runLen (fun c => c = ch) t + 2) else none
  | _ => none

/-- The conservative fallback of `_clean_filename_basic` used when
aggressive cleaning leaves fewer than 3 characters: only the two
critical site patterns, punctuation normalization and space cleanup on
the original name. -/
def conservativeClean (orig : List Char) : List Char :=
  collapseStrip (mapChar '.' ' ' (mapChar '_' ' '
    (applySite siteTamilWww (applySite siteSanetSt orig))))

/-- Re-append the preserved year when neither `(YYYY)` nor the bare
digits remain in the cleaned name. -/
def yearAppendStep (yv : Option (List Char)) (s : List Char) : List Char :=
  match yv with
  | none => s
  | some y =>
    if containsSub ('(' :: (y ++ [')'])) s || containsSub y s then s
    else s ++ (' ' :: '(' :: (y ++ [')']))

/-- The too-short guard: fewer than 3 characters left falls back to
the conservative cleaning of the original name. -/
def lenGuard (n0 x : List Char) : List Char :=
  if x.length < 3 then conservativeClean n0 else x

/-- Steps (2)-(8) of `_clean_filename_basic` on the extension-free
name part: site tags, punctuation runs, separator cut, release groups,
junk patterns, space cleanup, parenthetical removal, short-name
guard. -/
def cleanBody (yv : Option (List Char)) (n0 : List Char) : List Char :=
  lenGuard n0 (collapseStrip (stripWs (parenStep (collapseStrip (junkSteps yv
    (relSteps (sepCut (mapChar '.' ' ' (mapChar '_' ' '
      (junkSub (runAt '.') (junkSub (runAt '_') (stripSiteTags n0))))))))))))

/-- The cleaning pipeline of `_clean_filename_basic` on the extension-
free name part, given the extracted year. -/
def cleanCore (yv : Option (List Char)) (n0 : List Char) : List Char :=
  yearAppendStep yv (cleanBody yv n0)

/-- `MediaProcessor._clean_filename_basic` on a character list. -/
def cleanFilenameBasicL (filename : List Char) : List Char :=
  if cleanCore (yearOf (splitExt filename).1) (splitExt filename).1 = [] then filename
  else cleanCore (yearOf (splitExt filename).1) (splitExt filename).1 ++ (splitExt filename).2

/-- `MediaProcessor._clean_filename_basic`. -/
def cleanFilenameBasic (s : String) : String :=
  String.mk (cleanFilenameBasicL s.data)

/-! ## Series name and episode extraction
(`MediaProcessor._extract_series_name_and_episode`, media_processor.py
lines 474-539). -/

/-- `^www\.\d*TamilMV\.[a-z]+\s*-\s*`. -/
def exSiteTamilDots (s : List Char) : Option (List Char) :=
  (dropLitI (strL "www") s).bind fun r1 =>
  (dropChr '.' r1).bind fun r2 =>
  (dropLitI (strL "tamilmv") (dropRun isDigitC r2)).bind fun r3 =>
  (dropChr '.' r3).bind fun r4 =>
  (dropPlus isAlphaC r4).bind fun r5 =>
  (dropChr '-' (dropRun isSpaceC r5)).map (dropRun isSpaceC)

/-- `^www\s+\d*TamilMV\s+[a-z]+\s*-\s*`. -/
def exSiteTamilSp (s : List Char) : Option (List Char) :=
  (dropLitI (strL "www") s).bind fun r1 =>
  (dropPlus isSpaceC r1).bind fun r2 =>
  (dropLitI (strL "tamilmv") (dropRun isDigitC r2)).bind fun r3 =>
  (dropPlus isSpaceC r3).bind fun r4 =>
  (dropPlus isAlphaC r4).bind fun r5 =>
  (dropChr '-' (dropRun isSpaceC r5)).map (dropRun isSpaceC)

/-- `^sanet[\s.]*\w*\s*-\s*`. -/
def exSiteSanet (s : List Char) : Option (List Char) :=
  (dropLitI (strL "sanet") s).bind fun r1 =>
  let r2 := dropRun isSpaceC (dropRun isWordC (dropRun isSdot r1))
  (dropChr '-' r2).map (dropRun isSpaceC)

/-- `^www\.\w+\s*-\s*`. -/
def exSiteWwwOne (s : List Char) : Option (List Char) :=
  (dropLitI (strL "www") s).bind fun r1 =>
  (dropChr '.' r1).bind fun r2 =>
  (dropPlus isWordC r2).bind fun r3 =>
  (dropChr '-' (dropRun isSpaceC r3)).map (dropRun isSpaceC)

/-- The seven website-cleanup substitutions of
`_extract_series_name_and_episode`, in source order. -/
def exStripSites (s : List Char) : List Char :=
  applySite exSiteWwwOne (applySite (siteBracket ["tamilmv", "sanet"])
    (applySite siteWwwWords (applySite siteWwwDots (applySite exSiteSanet
      (applySite exSiteTamilSp (applySite exSiteTamilDots s))))))

/-- `(\d{1,2})` greedy with backtracking: the two-digit reading first,
then the one-digit one. -/
def dig12 (s : List Char) : List (List Char × List Char) :=
  match s with
  | a :: b :: t =>
    if isDigitC a then
      if isDigitC b then [([a, b], t), ([a], b :: t)] else [([a], b :: t)]
    else []
  | [a] => if isDigitC a then [([a], [])] else []
  | [] => []

/-- `(?:\s+(.*))?$`: the rest is empty or starts with whitespace. -/
def tailOkB : List Char → Bool
  | [] => true
  | c :: _ => isSpaceC c

/-- `\s+(.+)$`: whitespace then at least one further character. -/
def tailReq : List Char → Bool
  | c :: _ :: _ => isSpaceC c
  | _ => false

/-- Tag of patterns 1, 2 and 6 of the cascade:
`\s+[Ss](\d{1,2})[sep](\d{1,2})` plus the tail condition, where `sep`
is `[Ee]` or `[EeXx]` and `req` selects the mandatory-title tail of the
final pattern. -/
def seTagWith (secs epcs : List Char) (req : Bool) (s : List Char) :
    Option (List Char × List Char) :=
  (dropPlus isSpaceC s).bind fun r1 =>
  (dropOneOf secs r1).bind fun r2 =>
  firstSome ((dig12 r2).map fun p =>
    (dropOneOf epcs p.2).bind fun r4 =>
    firstSome ((dig12 r4).map fun q =>
      if (if req then tailReq q.2 else tailOkB q.2) then some (p.1, q.1) else none))

/-- Tag of pattern 3:
`\s+Season[\s._]*(\d{1,2})[\s._]*Episode[\s._]*(\d{1,2})` plus tail. -/
def seasonEpTag (s : List Char) : Option (List Char × List Char) :=
  (dropPlus isSpaceC s).bind fun r1 =>
  (dropLitI (strL "season") r1).bind fun r2 =>
  firstSome ((dig12 (dropRun isSdotU r2)).map fun p =>
    (dropLitI (strL "episode") (dropRun isSdotU p.2)).bind fun r6 =>
    firstSome ((dig12 (dropRun isSdotU r6)).map fun q =>
      if tailOkB q.2 then some (p.1, q.1) else none))

/-- Tag of pattern 4: `\s+(\d{1,2})[xX](\d{1,2})` plus tail. -/
def nxmTag (s : List Char) : Option (List Char × List Char) :=
  (dropPlus isSpaceC s).bind fun r1 =>
  firstSome ((dig12 r1).map fun p =>
    (dropOneOf ['x', 'X'] p.2).bind fun r3 =>
    firstSome ((dig12 r3).map fun q =>
      if tailOkB q.2 then some (p.1, q.1) else none))

/-- Tag of pattern 5: `\s+(\d)(\d{2})` plus tail (three digits read as
season plus two-digit episode). -/
def threeDigitTag (s : List Char) : Option (List Char × List Char) :=
  (dropPlus isSpaceC s).bind fun r1 =>
  match r1 with
  | a :: b :: c :: t =>
    if isDigitC a && isDigitC b && isDigitC c && tailOkB t then some ([a], [b, c]) else none
  | _ => none

/-- The lazy `^(.*?)` of the cascade patterns: try the tag at each
split point, preferring the shortest group 1. -/
def scanSplit (tag : List Char → Option (List Char × List Char)) :
    List Char → List Char → Option (List Char × List Char × List Char)
  | acc, [] =>
    match tag [] with
    | some (a, b) => some (acc.reverse, a, b)
    | none => none
  | acc, c :: t =>
    match tag (c :: t) with
    | some (a, b) => some (acc.reverse, a, b)
    | none => scanSplit tag (c :: acc) t

/-- Python `str.zfill(2)`. -/
def zfill2 (s : List Char) : List Char :=
  if s.length < 2 then List.replicate (2 - s.length) '0' ++ s else s

/-- Remove a maximal trailing run of class characters
(`re.sub(r'[class]+$', '', s)`). -/
def trimTrailClass (p : Char → Bool) (s : List Char) : List Char :=
  (s.reverse.dropWhile p).reverse

/-- `re.sub(r'\s*\(\d{4}\)$', '', s)`. -/
def trimTrailParenYear (s : List Char) : List Char :=
  match s.reverse with
  | ')' :: a :: b :: c :: d :: '(' :: r =>
    if isDigitC d && isDigitC c && isDigitC b && isDigitC a then
      (r.dropWhile isSpaceC).reverse
    else s
  | _ => s

/-- `re.sub(r'\s*\d{4}$', '', s)`. -/
def trimTrailYear (s : List Char) : List Char :=
  match s.reverse with
  | a :: b :: c :: d :: r =>
    if isDigitC a && isDigitC b && isDigitC c && isDigitC d then
      (r.dropWhile isSpaceC).reverse
    else s
  | _ => s

/-- `MediaProcessor._extract_series_name_and_episode` on a character
list: website cleanup, the six-pattern cascade (first match wins), then
series-name polishing; on no match, the cleaned whole name with no
season or episode. -/
def exCleanInput (filename : List Char) : List Char :=
  stripWs (mapChar '.' ' ' (exStripSites (splitExt filename).1))

/-- The six-pattern cascade of `_extract_series_name_and_episode`,
first match wins. -/
def exCascade (c1 : List Char) : Option (List Char × List Char × List Char) :=
  firstSome [
    scanSplit (seTagWith ['S', 's'] ['E', 'e'] false) [] c1,
    scanSplit (seTagWith ['S', 's'] ['E', 'e', 'X', 'x'] false) [] c1,
    scanSplit seasonEpTag [] c1,
    scanSplit nxmTag [] c1,
    scanSplit threeDigitTag [] c1,
    scanSplit (seTagWith ['S', 's'] ['E', 'e'] true) [] c1]

/-- The series-name polishing chain applied to capture group 1:
trailing separator-class trim, trailing `(year)` and bare-year trims,
then a pass through the basic cleaner via the `.temp` trick. -/
def exPolish (g1 : List Char) : List Char :=
  replaceAll (strL ".temp") [] (cleanFilenameBasicL
    (stripWs (trimTrailYear (stripWs (trimTrailParenYear
      (trimTrailClass isSdotUDash (stripWs g1))))) ++ strL ".temp"))

/-- The no-match fallback: the cleaned whole name with its extension
removed, and no season or episode. -/
def exFallback (orig : List Char) :
    List Char × Option (List Char) × Option (List Char) :=
  (replaceAll (splitExt orig).2 [] (cleanFilenameBasicL orig), none, none)

def extractSeriesNameAndEpisodeL (filename : List Char) :
    List Char × Option (List Char) × Option (List Char) :=
  match exCascade (exCleanInput filename) with
  | some (g1, ss, ee) => (exPolish g1, some (zfill2 ss), some (zfill2 ee))
  | none => exFallback (splitExt filename).1

/-- `MediaProcessor._extract_series_name_and_episode`. -/
def extractSeriesNameAndEpisode (filename : String) :
    String × Option String × Option String :=
  let r := extractSeriesNameAndEpisodeL filename.data
  (String.mk r.1, r.2.1.map String.mk, r.2.2.map String.mk)

/-! ## Track selection
(`MediaProcessor._extract_preferred_tracks`, media_processor.py lines
686-760: track classification and the empty-keep-audio guard). -/

/-- Track stream kind as reported by MediaInfo (`track.track_type`). -/
inductive TrackKind
  | video
  | audio
  | text
deriving DecidableEq, Repr

/-- One MediaInfo track: id, language code and title may be absent. -/
structure MTrack where
  kind : TrackKind
  trackId : Option Int
  language : Option String
  title : Option String
deriving DecidableEq, Repr

/-- `str(track.language or "").lower()`. -/
def trackLang (t : MTrack) : List Char := lowerL (t.language.getD "").data

/-- `str(getattr(track, 'title', '') or "").lower()`. -/
def trackTitle (t : MTrack) : List Char := lowerL (t.title.getD "").data

/-- `malayalam_codes` of the source. -/
def malayalamCodes : List String := ["mal", "malayalam", "ml"]

/-- `malayalam_keywords` of the source. -/
def malayalamKeywords : List String := ["malayalam", "malayalee", "malayali"]

/-- `english_codes` of the subtitle branch. -/
def englishSubCodes : List String := ["eng", "english", "en"]

/-- The `is_malayalam` test of the `preferred_audio_lang == "mal"`
branch: exact code membership, or a keyword substring of the language
or of the title. -/
def isMalayalamAudio (t : MTrack) : Bool :=
  malayalamCodes.any (fun c => trackLang t = c.data) ||
  malayalamKeywords.any (fun k => containsSub k.data (trackLang t)) ||
  malayalamKeywords.any (fun k => containsSub k.data (trackTitle t))

/-- The `is_english` subtitle test of the Malayalam branch: an English
code substring of the language or of the title. -/
def isEnglishSubtitle (t : MTrack) : Bool :=
  englishSubCodes.any (fun c => containsSub c.data (trackLang t)) ||
  englishSubCodes.any (fun c => containsSub c.data (trackTitle t))

/-- The three keep lists accumulated by the track loop (mkvmerge
indices, `track_id - 1`). -/
structure TrackSel where
  video : List Int
  audio : List Int
  subs : List Int
deriving DecidableEq, Repr

/-- One iteration of the track loop: tracks without an id are skipped;
video is always kept; audio and text are tested by the Malayalam
policy when `preferred_audio_lang` is `"mal"`, else by plain substring
checks against the preferred codes. -/
def classifyTrack (preferredAudio : String) (preferredSub : Option String)
    (sel : TrackSel) (t : MTrack) : TrackSel :=
  match t.trackId with
  | none => sel
  | some tid =>
    match t.kind with
    | TrackKind.video => { sel with video := sel.video ++ [tid - 1] }
    | TrackKind.audio =>
      if preferredAudio = "mal" then
        if isMalayalamAudio t then { sel with audio := sel.audio ++ [tid - 1] } else sel
      else
        if containsSub preferredAudio.data (trackLang t) then
          { sel with audio := sel.audio ++ [tid - 1] }
        else sel
    | TrackKind.text =>
      if preferredAudio = "mal" then
        if isEnglishSubtitle t then { sel with subs := sel.subs ++ [tid - 1] } else sel
      else
        match preferredSub with
        | some ps =>
          if containsSub ps.data (trackLang t) then { sel with subs := sel.subs ++ [tid - 1] }
          else sel
        | none => sel

/-- The whole classification loop. -/
def classifyTracks (preferredAudio : String) (preferredSub : Option String)
    (tracks : List MTrack) : TrackSel :=
  tracks.foldl (classifyTrack preferredAudio preferredSub) ⟨[], [], []⟩

/-- Outcome of `_extract_preferred_tracks`: `noInfo` models the `None`
returns (no parseable media info), `keepOriginal` the
`return original_filepath` of the empty keep-audio guard, and `remux`
an mkvmerge invocation with the selected track indices. -/
inductive ExtractDecision
  | noInfo
  | keepOriginal
  | remux (video audio subs : List Int)
deriving DecidableEq, Repr

/-- The decision logic of `_extract_preferred_tracks` up to the
mkvmerge invocation. -/
def extractPreferredTracks (hasMediaInfo : Bool) (tracks : List MTrack)
    (preferredAudio : String) (preferredSub : Option String) : ExtractDecision :=
  if !hasMediaInfo || tracks.isEmpty then ExtractDecision.noInfo
  else if (classifyTracks preferredAudio preferredSub tracks).audio = [] then
    ExtractDecision.keepOriginal
  else
    ExtractDecision.remux (classifyTracks preferredAudio preferredSub tracks).video
      (classifyTracks preferredAudio preferredSub tracks).audio
      (classifyTracks preferredAudio preferredSub tracks).subs

/-! ## The transfer/cleanup structure of `process_file`
(media_processor.py lines 139-292), abstracted over collaborator
outcomes. -/

/-- What `_extract_preferred_tracks` returned when the extraction
branch ran: the original path itself, a temporary path (with its
`os.path.exists` status), or `None`. -/
inductive ExtractOutcome
  | keptOriginal
  | producedTemp (tempExists : Bool)
  | failedNone
deriving DecidableEq, Repr

/-- The inputs `process_file` draws from configuration, detection and
its collaborators. -/
structure ProcEnv where
  fileExists : Bool
  extractAudioTracks : Bool
  language : String
  extraction : ExtractOutcome
  targetBaseKnown : Bool
  formatOk : Bool
  dryRun : Bool
  transferOk : Bool
  cleanOriginalFiles : Bool
  sourceExistsAtCleanup : Bool
deriving DecidableEq, Repr

/-- What one `process_file` run reports and deletes. -/
structure ProcOutcome where
  ret : Bool
  removedSource : Bool
  removedTemp : Bool
deriving DecidableEq, Repr

/-- Whether `extraction_temp_file` names an existing temporary file
distinct from the source at the cleanup sites of `process_file` (the
variable equals the source path when extraction kept the original, and
is `None` when extraction failed). -/
def tempCleanable (env : ProcEnv) : Bool :=
  (env.extractAudioTracks && env.language == "malayalam") &&
    (match env.extraction with
     | ExtractOutcome.producedTemp e => e
     | _ => false)

/-- `MediaProcessor.process_file`: missing file aborts; an unknown
target base path returns failure (before any temp cleanup); a filename
formatting failure returns failure after temp cleanup; dry run reports
success after temp cleanup; otherwise the transfer outcome is
reported, the source is deleted only after a successful transfer with
`clean_original_files` enabled (and only if it still exists), and the
temporary extracted file is deleted in every post-format path. -/
def processFile (env : ProcEnv) : ProcOutcome :=
  if !env.fileExists then ⟨false, false, false⟩
  else if !env.targetBaseKnown then ⟨false, false, false⟩
  else if !env.formatOk then ⟨false, false, tempCleanable env⟩
  else if env.dryRun then ⟨true, false, tempCleanable env⟩
  else
    let succ := env.transferOk
    ⟨succ, succ && env.cleanOriginalFiles && env.sourceExistsAtCleanup, tempCleanable env⟩

/-! ## Season folder unification
(`modules/media/season_unifier.py` and the `season_folders` table of
`modules/database/media_database.py`, whose schema carries
`UNIQUE(series_name_normalized, language)`). -/

/-- `\s*\(\d{4}\)\s*` (the unifier's year removal). -/
def yearParenSpAt (_ : Option Char) (s : List Char) : Option Nat :=
  ((dropChr '(' (dropRun isSpaceC s)).bind fun r2 =>
    match r2 with
    | a :: b :: c :: d :: ')' :: t =>
      if isDigitC a && isDigitC b && isDigitC c && isDigitC d then
        some (dropRun isSpaceC t)
      else none
    | _ => none).map (lenFrom s)

/-- `SeasonFolderUnifier.normalize_series_name`: remove years with
surrounding spaces, map special characters to spaces, collapse, strip,
lower-case. -/
def normalizeSeriesNameL (s : List Char) : List Char :=
  let n1 := subAll yearParenSpAt [] (s.length + 1) none s
  let n2 := n1.map fun c => if !isWordC c && !isSpaceC c then ' ' else c
  lowerL (collapseStrip n2)

/-- String form of the unifier's normalizer. -/
def normalizeSeriesName (s : String) : String := String.mk (normalizeSeriesNameL s.data)

/-- `\(\d{4}\)` (the database's year removal, without surrounding
spaces). -/
def dbYearParenAt (_ : Option Char) (s : List Char) : Option Nat :=
  match s with
  | '(' :: a :: b :: c :: d :: ')' :: _ =>
    if isDigitC a && isDigitC b && isDigitC c && isDigitC d then some 6 else none
  | _ => none

/-- `MediaDatabase._normalize_series_name`. -/
def dbNormalizeSeriesNameL (s : List Char) : List Char :=
  let n1 := subAll dbYearParenAt [] (s.length + 1) none s
  let n2 := n1.map fun c => if !isWordC c && !isSpaceC c then ' ' else c
  lowerL (collapseStrip n2)

/-- String form of the database's normalizer. -/
def dbNormalizeSeriesName (s : String) : String := String.mk (dbNormalizeSeriesNameL s.data)

/-- One row of the `season_folders` table. -/
structure SeasonMapping where
  seriesNameNormalized : String
  nameVariations : List String
  canonicalFolderName : String
  destinationPath : String
  language : String
  totalSeasons : Nat
  totalEpisodes : Nat
deriving DecidableEq, Repr

/-- `SELECT ... WHERE series_name_normalized = ? AND language = ?`. -/
def dbFind (db : List SeasonMapping) (norm lang : String) : Option SeasonMapping :=
  db.find? fun r => r.seriesNameNormalized == norm && r.language == lang

/-- `MediaDatabase.get_season_folder_mapping`: normalize with the
database's normalizer, then look the pair up. -/
def getSeasonFolderMapping (db : List SeasonMapping) (seriesName lang : String) :
    Option SeasonMapping :=
  dbFind db (dbNormalizeSeriesName seriesName) lang

/-- The `UNIQUE(series_name_normalized, language)` schema constraint
on the row list. -/
def DbWf (db : List SeasonMapping) : Prop :=
  List.Pairwise (fun a b =>
    (a.seriesNameNormalized, a.language) ≠ (b.seriesNameNormalized, b.language)) db

/-- One immediate subdirectory of the destination base path, with its
own subdirectories (season folders). -/
structure FsDir where
  dirName : String
  subdirs : List String
deriving DecidableEq, Repr

/-- `os.path.exists(os.path.join(base_path, nm))` together with
`os.listdir` access. -/
def fsLookup (fs : List FsDir) (nm : String) : Option FsDir :=
  fs.find? fun d => d.dirName == nm

/-- Leftmost `[Ss]eason\s*(\d+)` digits inside a folder name
(searched with `IGNORECASE`). -/
def seasonNumTry (s : List Char) : Option (List Char) :=
  ((dropLitI (strL "season") s).map (dropRun isSpaceC)).bind fun r =>
    match r with
    | c :: t => if isDigitC c then some (c :: t.takeWhile isDigitC) else none
    | [] => none

/-- Search wrapper for `[Ss]eason\s*(\d+)`. -/
def seasonNumFind : List Char → Option (List Char)
  | [] => none
  | c :: t =>
    match seasonNumTry (c :: t) with
    | some d => some d
    | none => seasonNumFind t

/-- `^[Ss](\d+)$` (searched case-sensitively). -/
def simpleSeasonTry (s : List Char) : Option (List Char) :=
  match s with
  | c :: t => if (c = 'S' || c = 's') && t ≠ [] && t.all isDigitC then some t else none
  | [] => none

/-- Decimal value of a digit string (`int`). -/
def natOfDigits (s : List Char) : Nat :=
  s.foldl (fun n c => n * 10 + (c.toNat - '0'.toNat)) 0

/-- Ascending insertion for `sorted`. -/
def insertSorted (n : Nat) : List Nat → List Nat
  | [] => [n]
  | m :: t => if n ≤ m then n :: m :: t else m :: insertSorted n t

/-- `sorted(seasons)`. -/
def sortNats (l : List Nat) : List Nat := l.foldr insertSorted []

/-- `_scan_existing_seasons` over the season subfolder names. -/
def scanExistingSeasons (subdirs : List String) : List Nat :=
  sortNats (subdirs.filterMap fun d =>
    match seasonNumFind d.data with
    | some ds => some (natOfDigits ds)
    | none =>
      match simpleSeasonTry d.data with
      | some ds => some (natOfDigits ds)
      | none => none)

/-- `name.split()`: whitespace-separated words, no empties. -/
def splitWsGo (cur : List Char) : List Char → List (List Char)
  | [] => if cur = [] then [] else [cur.reverse]
  | c :: t =>
    if isSpaceC c then
      if cur = [] then splitWsGo [] t else cur.reverse :: splitWsGo [] t
    else splitWsGo (c :: cur) t

/-- Word list of a name. -/
def splitWords (s : List Char) : List (List Char) := splitWsGo [] s

/-- `_is_close_match`: word-set Jaccard similarity at least the 0.8
threshold.  Stated over naturals as `5*|inter| >= 4*|union|`, which
agrees with the source's float comparison at every word-set size that
can arise here. -/
def isCloseMatch (name1 name2 : String) : Bool :=
  let w1 := (splitWords name1.data).dedup
  let w2 := (splitWords name2.data).dedup
  if w1 = [] || w2 = [] then false
  else
    let inter := w1.filter fun w => w2.contains w
    let union := (w1 ++ w2).dedup
    5 * inter.length ≥ 4 * union.length

/-- What `find_existing_series_folder` reports about a hit. -/
structure FoundFolder where
  canonicalName : String
  existingSeasons : List Nat
  src : String
deriving DecidableEq, Repr

/-- `find_existing_series_folder`: the database mapping wins when its
canonical folder still exists; otherwise scan the base directory for
an exact normalized or close match. -/
def findExistingSeriesFolder (db : List SeasonMapping) (fs : List FsDir)
    (baseExists : Bool) (seriesName lang : String) : Option FoundFolder :=
  if !baseExists then none
  else
    let fsScan :=
      match fs.find? (fun d =>
          normalizeSeriesName d.dirName == normalizeSeriesName seriesName ||
          isCloseMatch (normalizeSeriesName d.dirName) (normalizeSeriesName seriesName)) with
      | some d => some ⟨d.dirName, scanExistingSeasons d.subdirs, "filesystem"⟩
      | none => none
    match getSeasonFolderMapping db seriesName lang with
    | some m =>
      match fsLookup fs m.canonicalFolderName with
      | some d => some ⟨m.canonicalFolderName, scanExistingSeasons d.subdirs, "database"⟩
      | none => fsScan
    | none => fsScan

/-- Greedy `(\d+)`. -/
def digitsPlus (s : List Char) : Option (List Char × List Char) :=
  match s with
  | c :: t => if isDigitC c then some (c :: t.takeWhile isDigitC, t.dropWhile isDigitC) else none
  | [] => none

/-- `\s+[Ss](\d+)[Ee](\d+)` tag of `extract_series_info`. -/
def infoSeTag (s : List Char) : Option (Nat × Nat) :=
  (dropPlus isSpaceC s).bind fun r1 =>
  (dropOneOf ['S', 's'] r1).bind fun r2 =>
  (digitsPlus r2).bind fun p =>
  (dropOneOf ['E', 'e'] p.2).bind fun r3 =>
  (digitsPlus r3).map fun e => (natOfDigits p.1, natOfDigits e.1)

/-- `\s+Season\s+(\d+)\s+Episode\s+(\d+)` tag. -/
def infoSeasonTag (s : List Char) : Option (Nat × Nat) :=
  (dropPlus isSpaceC s).bind fun r1 =>
  (dropLitI (strL "season") r1).bind fun r2 =>
  (dropPlus isSpaceC r2).bind fun r3 =>
  (digitsPlus r3).bind fun p =>
  (dropPlus isSpaceC p.2).bind fun r4 =>
  (dropLitI (strL "episode") r4).bind fun r5 =>
  (dropPlus isSpaceC r5).bind fun r6 =>
  (digitsPlus r6).map fun e => (natOfDigits p.1, natOfDigits e.1)

/-- `\s+(\d+)x(\d+)` tag. -/
def infoNxTag (s : List Char) : Option (Nat × Nat) :=
  (dropPlus isSpaceC s).bind fun r1 =>
  (digitsPlus r1).bind fun p =>
  (dropChr 'x' p.2).bind fun r2 =>
  (digitsPlus r2).map fun e => (natOfDigits p.1, natOfDigits e.1)

/-- `\s+[Ss](\d+)\s+EP(\d+)` tag. -/
def infoSEpTag (s : List Char) : Option (Nat × Nat) :=
  (dropPlus isSpaceC s).bind fun r1 =>
  (dropOneOf ['S', 's'] r1).bind fun r2 =>
  (digitsPlus r2).bind fun p =>
  (dropPlus isSpaceC p.2).bind fun r3 =>
  (dropLitI (strL "ep") r3).bind fun r4 =>
  (digitsPlus r4).map fun e => (natOfDigits p.1, natOfDigits e.1)

/-- The lazy `^(.+?)` scan (group 1 has at least one character). -/
def scanInfoGo (tag : List Char → Option (Nat × Nat)) :
    List Char → List Char → Option (List Char × Nat × Nat)
  | acc, s =>
    match tag s with
    | some p => some (acc.reverse, p.1, p.2)
    | none =>
      match s with
      | [] => none
      | c :: t => scanInfoGo tag (c :: acc) t

/-- Wrapper: the first character always belongs to group 1. -/
def scanInfo (tag : List Char → Option (Nat × Nat)) (s : List Char) :
    Option (List Char × Nat × Nat) :=
  match s with
  | [] => none
  | c :: t => scanInfoGo tag [c] t

/-- The result record of `extract_series_info`. -/
structure SeriesInfo where
  seriesName : String
  seasonNumber : Nat
  episodeNumber : Nat
  normalizedName : String
deriving DecidableEq, Repr

/-- `SeasonFolderUnifier.extract_series_info`: the four patterns in
order; an empty record (here `none`) when nothing matches. -/
def extractSeriesInfo (filename : String) : Option SeriesInfo :=
  match firstSome [
      scanInfo infoSeTag filename.data,
      scanInfo infoSeasonTag filename.data,
      scanInfo infoNxTag filename.data,
      scanInfo infoSEpTag filename.data] with
  | some r =>
    let nm := String.mk (stripWs r.1)
    some ⟨nm, r.2.1, r.2.2, normalizeSeriesName nm⟩
  | none => none

/-- `re.sub(r'\s*\(\d{4}\)\s*$', '', s)`. -/
def trimTrailParenYearSp (s : List Char) : List Char :=
  match s.reverse.dropWhile isSpaceC with
  | ')' :: a :: b :: c :: d :: '(' :: r =>
    if isDigitC a && isDigitC b && isDigitC c && isDigitC d then
      (r.dropWhile isSpaceC).reverse
    else s
  | _ => s

/-- `_get_clean_series_name`: drop a leading `www.x.y - ` tag, a
trailing parenthesized year, and extra spaces. -/
def getCleanSeriesName (s : String) : String :=
  String.mk (collapseStrip (trimTrailParenYearSp (applySite siteWwwDots s.data)))

/-- The unification info dictionary returned beside the path. -/
structure UnifyInfo where
  unified : Bool
  canonicalName : Option String
  existingSeasons : List Nat
  targetSeason : Option Nat
  seriesPath : Option String
  src : String
deriving DecidableEq, Repr

/-- `os.path.join` for the slash-free component names used here. -/
def joinPath (a b : String) : String := a ++ "/" ++ b

/-- `f"Season {n:02d}"`. -/
def seasonFolder2 (n : Nat) : String :=
  "Season " ++ (if n < 10 then "0" ++ toString n else toString n)

/-- `SeasonFolderUnifier.get_unified_destination_path`. -/
def getUnifiedDestinationPath (db : List SeasonMapping) (fs : List FsDir)
    (baseExists : Bool) (filename lang basePath : String) : String × UnifyInfo :=
  match extractSeriesInfo filename with
  | none =>
    (joinPath basePath filename, ⟨false, none, [], none, none, "no_series_pattern"⟩)
  | some si =>
    match findExistingSeriesFolder db fs baseExists si.seriesName lang with
    | some ff =>
      let seriesPath := joinPath basePath ff.canonicalName
      (joinPath seriesPath (seasonFolder2 si.seasonNumber),
       ⟨true, some ff.canonicalName, ff.existingSeasons, some si.seasonNumber,
        some seriesPath, ff.src⟩)
    | none =>
      let cleanName := getCleanSeriesName si.seriesName
      let seriesPath := joinPath basePath cleanName
      (joinPath seriesPath (seasonFolder2 si.seasonNumber),
       ⟨false, some cleanName, [], some si.seasonNumber, some seriesPath, "new"⟩)

/-- `os.path.dirname` for the simple slash-joined paths used here. -/
def dirNameOf (p : String) : String :=
  match lastIdxOf '/' p.data with
  | some i => String.mk (p.data.take i)
  | none => ""

/-- The `UPDATE season_folders SET series_name_variations = ?,
total_seasons = ?, total_episodes = ? WHERE series_name_normalized = ?
AND language = ?` statement applied to one row. -/
def updateRow (seriesName key lang : String) (seasonNum : Nat)
    (r : SeasonMapping) : SeasonMapping :=
  if r.seriesNameNormalized == key && r.language == lang then
    { r with
      nameVariations :=
        if r.nameVariations.contains seriesName then r.nameVariations
        else r.nameVariations ++ [seriesName],
      totalSeasons := max r.totalSeasons seasonNum,
      totalEpisodes := r.totalEpisodes + 1 }
  else r

/-- `SeasonFolderUnifier.update_database_mapping`: an existing row for
the normalized key gets its name variations and season/episode
counters updated (its canonical folder name and key are untouched); a
missing key gets a fresh row inserted. -/
def updateDatabaseMapping (db : List SeasonMapping) (seriesName lang : String)
    (canonicalName seriesPath : String) (seasonNum : Nat) :
    List SeasonMapping :=
  match getSeasonFolderMapping db seriesName lang with
  | some _ =>
    db.map (updateRow seriesName (dbNormalizeSeriesName seriesName) lang seasonNum)
  | none =>
    db ++ [⟨dbNormalizeSeriesName seriesName, [seriesName], canonicalName,
      dirNameOf seriesPath, lang, seasonNum, 1⟩]

/-- Spec-side keep-set for C5: the mkvmerge indices of exactly those
audio tracks (with an id) whose language code or title satisfies the
Malayalam test. -/
def keptMalayalamAudio (tracks : List MTrack) : List Int :=
  tracks.filterMap fun t =>
    match t.trackId, t.kind with
    | some tid, TrackKind.audio => if isMalayalamAudio t then some (tid - 1) else none
    | _, _ => none

/-- Spec-side keep-set for C5: exactly the subtitle tracks identified
as English. -/
def keptEnglishSubs (tracks : List MTrack) : List Int :=
  tracks.filterMap fun t =>
    match t.trackId, t.kind with
    | some tid, TrackKind.text => if isEnglishSubtitle t then some (tid - 1) else none
    | _, _ => none

/-- Spec-side keep-set for C5: every video track with an id. -/
def keptVideo (tracks : List MTrack) : List Int :=
  tracks.filterMap fun t =>
    match t.trackId, t.kind with
    | some tid, TrackKind.video => some (tid - 1)
    | _, _ => none

/-! ## General lemmas about the scanners -/

set_option maxRecDepth 40000

theorem isPrefOf_nil (p : List Char) : isPrefOf p [] = true ↔ p = [] := by
  cases p <;> simp [isPrefOf]

theorem isPrefOf_refl_append (p r : List Char) : isPrefOf p (p ++ r) = true := by
  induction p with
  | nil => simp [isPrefOf]
  | cons a t ih => simp [isPrefOf, ih]

theorem containsSub_nil_pat (s : List Char) : containsSub [] s = true := by
  cases s <;> simp [containsSub, isPrefOf]

theorem containsSub_of_isPrefOf {p s : List Char} (h : isPrefOf p s = true) :
    containsSub p s = true := by
  cases s with
  | nil => simpa [containsSub] using h
  | cons c t => simp [containsSub, h]

theorem isPrefOf_trans {p q s : List Char} (h1 : isPrefOf p q = true)
    (h2 : isPrefOf q s = true) : isPrefOf p s = true := by
  induction q generalizing p s with
  | nil =>
    rw [(isPrefOf_nil p).mp h1]
    cases s <;> simp [isPrefOf]
  | cons a t ih =>
    cases p with
    | nil => cases s <;> simp [isPrefOf]
    | cons b pt =>
      cases s with
      | nil => simp [isPrefOf] at h2
      | cons c st =>
        simp only [isPrefOf, Bool.and_eq_true, decide_eq_true_eq] at h1 h2 ⊢
        exact ⟨h1.1.trans h2.1, ih h1.2 h2.2⟩

theorem containsSub_of_contains_pref {p q s : List Char}
    (h1 : containsSub p q = true) (h2 : isPrefOf q s = true) :
    containsSub p s = true := by
  induction q generalizing s with
  | nil =>
    have hp : p = [] := by simpa [containsSub, isPrefOf_nil] using h1
    subst hp
    exact containsSub_nil_pat s
  | cons a t ih =>
    cases s with
    | nil => simp [isPrefOf] at h2
    | cons c st =>
      simp only [isPrefOf, Bool.and_eq_true, decide_eq_true_eq] at h2
      simp only [containsSub, Bool.or_eq_true] at h1
      rcases h1 with hp | hc
      · refine containsSub_of_isPrefOf (isPrefOf_trans hp ?_)
        simp [isPrefOf, h2.1, h2.2]
      · have := ih hc h2.2
        simp [containsSub, this]

theorem containsSub_trans {p q s : List Char} (h1 : containsSub p q = true)
    (h2 : containsSub q s = true) : containsSub p s = true := by
  induction s with
  | nil =>
    have hq : q = [] := by simpa [containsSub, isPrefOf_nil] using h2
    subst hq
    have hp : p = [] := by simpa [containsSub, isPrefOf_nil] using h1
    subst hp
    exact containsSub_nil_pat []
  | cons c t ih =>
    simp only [containsSub, Bool.or_eq_true] at h2
    rcases h2 with hp | hc
    · exact containsSub_of_contains_pref h1 hp
    · have := ih hc
      simp [containsSub, this]

theorem isPrefOf_ext {p s : List Char} (b : List Char) (h : isPrefOf p s = true) :
    isPrefOf p (s ++ b) = true := by
  induction p generalizing s with
  | nil => simp [isPrefOf]
  | cons a t ih =>
    cases s with
    | nil => simp [isPrefOf] at h
    | cons c st =>
      simp only [isPrefOf, Bool.and_eq_true, decide_eq_true_eq] at h ⊢
      exact ⟨h.1, ih h.2⟩

theorem containsSub_append_left {p a : List Char} (b : List Char)
    (h : containsSub p a = true) : containsSub p (a ++ b) = true := by
  induction a with
  | nil =>
    have hp : p = [] := by simpa [containsSub, isPrefOf_nil] using h
    subst hp
    exact containsSub_nil_pat b
  | cons x t ih =>
    simp only [containsSub, Bool.or_eq_true] at h ⊢
    rcases h with hp | hc
    · exact Or.inl (isPrefOf_ext b hp)
    · exact Or.inr (ih hc)

theorem containsSub_append_right {p b : List Char} (a : List Char)
    (h : containsSub p b = true) : containsSub p (a ++ b) = true := by
  induction a with
  | nil => simpa using h
  | cons x t ih => simp [containsSub, ih]

theorem containsSub_ne_nil {p s : List Char} (h : containsSub p s = true)
    (hp : p ≠ []) : s ≠ [] := by
  intro hs
  subst hs
  exact hp ((isPrefOf_nil p).mp (by simpa [containsSub] using h))

theorem parenYearTry_ne_nil {s y : List Char} (h : parenYearTry s = some y) :
    y ≠ [] := by
  unfold parenYearTry at h
  split at h
  · split at h
    · cases h
      simp
    · cases h
  · cases h

theorem parenYearFind_ne_nil {s y : List Char} (h : parenYearFind s = some y) :
    y ≠ [] := by
  induction s with
  | nil => simp [parenYearFind] at h
  | cons c t ih =>
    unfold parenYearFind at h
    split at h
    · cases h
      exact parenYearTry_ne_nil (by assumption)
    · exact ih h

/-- The year re-append step always leaves the extracted year's digits
in the result, and the result is nonempty. -/
theorem yearAppendStep_contains {y : List Char} (n : List Char) (hy : y ≠ []) :
    containsSub y (yearAppendStep (some y) n) = true ∧
    yearAppendStep (some y) n ≠ [] := by
  have hinner : containsSub y ('(' :: (y ++ [')'])) = true := by
    have hbase := containsSub_of_isPrefOf (isPrefOf_refl_append y [')'])
    simp [containsSub, hbase]
  unfold yearAppendStep
  dsimp only
  by_cases hc : (containsSub ('(' :: (y ++ [')'])) n || containsSub y n) = true
  · rw [if_pos hc]
    have hc' : containsSub ('(' :: (y ++ [')'])) n = true ∨ containsSub y n = true := by
      simpa using hc
    have hyn : containsSub y n = true := by
      rcases hc' with h1 | h2
      · exact containsSub_trans hinner h1
      · exact h2
    exact ⟨hyn, containsSub_ne_nil hyn hy⟩
  · rw [if_neg hc]
    constructor
    · refine containsSub_append_right n ?_
      simp only [containsSub, Bool.or_eq_true]
      exact Or.inr (Or.inr (containsSub_of_isPrefOf (isPrefOf_refl_append y [')'])))
    · simp

/-! ## Claim theorems -/

/-- C1: the claim says a filename containing both a Hindi indicator
and an English indicator routes to "bollywood", never "english"
(priority 2 before priority 3).  The code violates the claim:
"Hindi.English.mkv" contains the Hindi indicator `hindi` and the
English indicator `english`, yet detection returns "malayalam",
because the Malayalam indicator list of `MediaDetector.__init__` ends
in the single letter `'m'`, matched by plain substring search against
the `m` of `mkv` at priority 1, so priorities 2 and 3 are never
reached.  This theorem records the code's behaviour at the failing
input. -/
theorem c1_hindi_english_filename_detected_malayalam :
    hindiHit (lowerL (strL "Hindi.English.mkv")) = true ∧
    englishHit (lowerL (strL "Hindi.English.mkv")) = true ∧
    detectLanguageFromFilename "Hindi.English.mkv" = "malayalam" := by
  decide

/-- C2 counterexample: the claim expects the cleaned title
"Avengers Endgame (2019)", but `_clean_filename_basic` returns
neither that string nor its extension-bearing form. -/
theorem c2_counterexample_avengers_not_reparenthesized :
    cleanFilenameBasic "Avengers.Endgame.2019.1080p.BluRay.x264-LAMA.mkv" ≠
      "Avengers Endgame (2019)" ∧
    cleanFilenameBasic "Avengers.Endgame.2019.1080p.BluRay.x264-LAMA.mkv" ≠
      "Avengers Endgame (2019).mkv" := by
  decide

/-- C2 amended: the cleaning maps the example input to
"Avengers Endgame 2019 1080p.mkv" — codec and release group are cut at
the `BluRay` separator, but the resolution token survives (the
quality-word separator is tried before the `\d+p` separator) and the
year stays bare, since its digits are already present and the
re-append step therefore does nothing. -/
theorem c2_amended_avengers_cleaned_value :
    cleanFilenameBasic "Avengers.Endgame.2019.1080p.BluRay.x264-LAMA.mkv" =
      "Avengers Endgame 2019 1080p.mkv" := by
  decide

/-- C9 counterexample: "Movie (1999) (2019).mkv" contains the
parenthesized year `(2019)` with 1888 ≤ 2019 ≤ current_year + 2, yet
the cleaned title contains `(2019)` zero times, not exactly once: the
year extractor keeps only the first parenthesized year (1999), and the
release-group pattern `\s*\([A-Z0-9]{2,}\)$` deletes the trailing
`(2019)`. -/
theorem c9_counterexample_second_paren_year_dropped :
    containsSub (strL "(2019)") (strL "Movie (1999) (2019).mkv") = true ∧
    1888 ≤ 2019 ∧ 2019 ≤ 2026 + 2 ∧
    cleanFilenameBasic "Movie (1999) (2019).mkv" = "Movie (1999).mkv" ∧
    containsSub (strL "(2019)") (cleanFilenameBasicL (strL "Movie (1999) (2019).mkv")) = false := by
  decide

/-- C9 amended: for every filename, if the cleaning step extracts a
parenthesized 4-digit year (the first one in the name part), the
cleaned result contains that year's digits at least once: either they
survive the pipeline, or the final step re-appends `(YYYY)`. -/
theorem c9_amended_first_year_digits_preserved (f y : List Char)
    (h : parenYearFind (splitExt f).1 = some y) :
    containsSub y (cleanFilenameBasicL f) = true := by
  have hy : y ≠ [] := parenYearFind_ne_nil h
  have hyear : yearOf (splitExt f).1 = some y := by
    unfold yearOf
    rw [h]
  have hcc := yearAppendStep_contains (y := y) (cleanBody (some y) (splitExt f).1) hy
  unfold cleanFilenameBasicL cleanCore
  rw [hyear, if_neg hcc.2]
  exact containsSub_append_left _ hcc.1

/-- C9 witness: the amended theorem applied to "Movie (2019).mkv". -/
theorem c9_amended_witness :
    containsSub (strL "2019") (cleanFilenameBasicL (strL "Movie (2019).mkv")) = true :=
  c9_amended_first_year_digits_preserved (strL "Movie (2019).mkv") (strL "2019") (by decide)

/-- C10: any filename whose lower-cased form contains the letter `m`
anywhere is routed to "malayalam" by the filename detector: the
`malayalam_indicators` list contains the single letter `'m'`, which is
not in the word-boundary set `['mal', 'ml']` and is therefore matched
by plain substring search in the priority-1 loop. -/
theorem c10_letter_m_forces_malayalam (s : String)
    (h : containsSub (strL "m") (lowerL s.data) = true) :
    detectLanguageFromFilename s = "malayalam" := by
  have hm : malayalamHit (lowerL s.data) = true := by
    apply List.any_eq_true.mpr
    refine ⟨"m", by simp [malayalamIndicators], ?_⟩
    have hc : (["mal", "ml"] : List String).contains "m" = false := by decide
    simpa [indicatorHit, hc] using h
  simp [detectLanguageFromFilename, hm]

/-- C10 witness: "English.Movie.mkv" contains `m`, so despite its
English indicators it is detected as "malayalam". -/
theorem c10_witness :
    containsSub (strL "m") (lowerL (strL "English.Movie.mkv")) = true ∧
    detectLanguageFromFilename "English.Movie.mkv" = "malayalam" :=
  ⟨by decide, c10_letter_m_forces_malayalam "English.Movie.mkv" (by decide)⟩

/-- The Malayalam-path track loop computes exactly the three
declarative keep-sets, for any starting accumulator. -/
theorem classifyTracks_foldl (ps : Option String) (ts : List MTrack) :
    ∀ sel : TrackSel, List.foldl (classifyTrack "mal" ps) sel ts =
      ⟨sel.video ++ keptVideo ts, sel.audio ++ keptMalayalamAudio ts,
       sel.subs ++ keptEnglishSubs ts⟩ := by
  induction ts with
  | nil =>
    intro sel
    simp [keptVideo, keptMalayalamAudio, keptEnglishSubs]
  | cons t ts ih =>
    intro sel
    rw [List.foldl_cons, ih]
    cases ht : t.trackId with
    | none =>
      simp [classifyTrack, ht, keptVideo, keptMalayalamAudio, keptEnglishSubs,
        List.filterMap_cons]
    | some tid =>
      cases hk : t.kind <;>
        by_cases hmal : isMalayalamAudio t = true <;>
        by_cases heng : isEnglishSubtitle t = true <;>
        simp [classifyTrack, ht, hk, keptVideo, keptMalayalamAudio, keptEnglishSubs,
          List.filterMap_cons, hmal, heng]

/-- C5: on the Malayalam routing path (`preferred_audio_lang = "mal"`),
the track classification keeps exactly the audio tracks passing the
Malayalam code/keyword test and exactly the subtitle tracks identified
as English (and all video tracks); in particular, for one `mal` audio,
one `hin` audio and one `eng` subtitle, it keeps the `mal` audio index
and the `eng` subtitle index and drops the `hin` audio index. -/
theorem c5_malayalam_track_selection_exact :
    (∀ (ps : Option String) (tracks : List MTrack),
      classifyTracks "mal" ps tracks =
        ⟨keptVideo tracks, keptMalayalamAudio tracks, keptEnglishSubs tracks⟩) ∧
    classifyTracks "mal" (some "eng")
      [⟨TrackKind.video, some 1, none, none⟩,
       ⟨TrackKind.audio, some 2, some "mal", none⟩,
       ⟨TrackKind.audio, some 3, some "hin", none⟩,
       ⟨TrackKind.text, some 4, some "eng", none⟩] =
      ⟨[0], [1], [3]⟩ := by
  constructor
  · intro ps tracks
    have h := classifyTracks_foldl ps tracks ⟨[], [], []⟩
    simpa [classifyTracks] using h
  · decide

/-- C6: on the Malayalam routing path, when no audio track matches a
Malayalam code or keyword, `_extract_preferred_tracks` answers
`keepOriginal` (process the original file, no extraction); and a remux
invocation never carries an empty keep-audio list. -/
theorem c6_no_malayalam_audio_keeps_original (ps : Option String)
    (tracks : List MTrack) (hne : tracks ≠ [])
    (h : ∀ t ∈ tracks, t.kind = TrackKind.audio → isMalayalamAudio t = false) :
    extractPreferredTracks true tracks "mal" ps = ExtractDecision.keepOriginal ∧
    ∀ (hasInfo : Bool) (tracks2 : List MTrack) (v a sub : List Int),
      extractPreferredTracks hasInfo tracks2 "mal" ps = ExtractDecision.remux v a sub →
      a ≠ [] := by
  constructor
  · have hkept : keptMalayalamAudio tracks = [] := by
      apply List.filterMap_eq_nil_iff.mpr
      intro t ht
      cases htid : t.trackId with
      | none => cases hk : t.kind <;> simp [htid, hk]
      | some tid =>
        cases hk : t.kind with
        | audio => simp [htid, hk, h t ht hk]
        | video => simp [htid, hk]
        | text => simp [htid, hk]
    have hsel := classifyTracks_foldl ps tracks ⟨[], [], []⟩
    unfold extractPreferredTracks
    rw [if_neg (by simp [hne])]
    simp only [classifyTracks] at hsel ⊢
    rw [hsel]
    simp [hkept]
  · intro hasInfo tracks2 v a sub hr
    unfold extractPreferredTracks at hr
    split at hr
    · cases hr
    · split at hr
      · cases hr
      · rename_i hnil
        cases hr
        exact hnil

/-- C6 witness: a track list with only `hin` and `eng` audio and an
`eng` subtitle, on the Malayalam path, keeps the original file. -/
theorem c6_witness :
    extractPreferredTracks true
      [⟨TrackKind.video, some 1, none, none⟩,
       ⟨TrackKind.audio, some 2, some "hin", none⟩,
       ⟨TrackKind.audio, some 3, some "eng", none⟩,
       ⟨TrackKind.text, some 4, some "eng", none⟩] "mal" (some "eng") =
      ExtractDecision.keepOriginal :=
  (c6_no_malayalam_audio_keeps_original (some "eng") _ (by decide) (by decide)).1

/-- C7: across all collaborator outcomes of `process_file`, the source
file is deleted only after a successful transfer with
`clean_original_files` enabled outside dry run; and on the main path a
failed transfer is reported as failure, leaves the source in place,
and still removes an existing temporary extracted file. -/
theorem c7_transfer_failure_preserves_source (env : ProcEnv) :
    ((processFile env).removedSource = true →
      env.transferOk = true ∧ env.cleanOriginalFiles = true ∧ env.dryRun = false) ∧
    (env.fileExists = true → env.targetBaseKnown = true → env.formatOk = true →
      env.dryRun = false → env.transferOk = false →
      (processFile env).ret = false ∧ (processFile env).removedSource = false ∧
      (processFile env).removedTemp = tempCleanable env) := by
  constructor
  · intro h
    unfold processFile at h
    split at h
    · simp at h
    · split at h
      · simp at h
      · split at h
        · simp at h
        · split at h
          · simp at h
          · rename_i h1 h2 h3 h4
            simp only [Bool.and_eq_true] at h
            refine ⟨h.1.1, h.1.2, ?_⟩
            simpa using h4
  · intro h1 h2 h3 h4 h5
    unfold processFile
    rw [if_neg (by simp [h1]), if_neg (by simp [h2]), if_neg (by simp [h3]),
      if_neg (by simp [h4])]
    simp [h5]

/-- C7 witness: a failing transfer on the main path with extraction
having produced an existing temporary file and cleanup enabled. -/
theorem c7_witness :
    (processFile ⟨true, true, "malayalam", ExtractOutcome.producedTemp true,
        true, true, false, false, true, true⟩).ret = false ∧
    (processFile ⟨true, true, "malayalam", ExtractOutcome.producedTemp true,
        true, true, false, false, true, true⟩).removedSource = false ∧
    (processFile ⟨true, true, "malayalam", ExtractOutcome.producedTemp true,
        true, true, false, false, true, true⟩).removedTemp =
      tempCleanable ⟨true, true, "malayalam", ExtractOutcome.producedTemp true,
        true, true, false, false, true, true⟩ :=
  (c7_transfer_failure_preserves_source _).2 rfl rfl rfl rfl rfl

/-- `updateRow` never changes the row key or canonical folder name. -/
theorem updateRow_fields (seriesName key lang : String) (sn : Nat) (r : SeasonMapping) :
    (updateRow seriesName key lang sn r).seriesNameNormalized = r.seriesNameNormalized ∧
    (updateRow seriesName key lang sn r).language = r.language ∧
    (updateRow seriesName key lang sn r).canonicalFolderName = r.canonicalFolderName := by
  unfold updateRow
  split <;> simp

/-- `find?` only depends on the predicate's values. -/
theorem find?_congr' {α : Type} {p q : α → Bool} (l : List α) (h : ∀ a, p a = q a) :
    l.find? p = l.find? q := by
  induction l with
  | nil => rfl
  | cons a t ih =>
    cases hqa : q a with
    | true =>
      rw [List.find?_cons_of_pos _ (by rw [h a, hqa]), List.find?_cons_of_pos _ hqa]
    | false =>
      rw [List.find?_cons_of_neg _ (by rw [h a, hqa]; simp),
        List.find?_cons_of_neg _ (by rw [hqa]; simp), ih]

/-- A row update commutes with the keyed lookup. -/
theorem dbFind_map_updateRow (db : List SeasonMapping) (seriesName key lang : String)
    (sn : Nat) (norm lg : String) :
    dbFind (db.map (updateRow seriesName key lang sn)) norm lg =
      (dbFind db norm lg).map (updateRow seriesName key lang sn) := by
  unfold dbFind
  rw [List.find?_map]
  congr 1
  apply find?_congr'
  intro r
  simp [Function.comp,
    (updateRow_fields seriesName key lang sn r).1,
    (updateRow_fields seriesName key lang sn r).2.1]

/-- The key-uniqueness invariant survives a row update. -/
theorem dbWf_map_updateRow {db : List SeasonMapping} (hwf : DbWf db)
    (seriesName key lang : String) (sn : Nat) :
    DbWf (db.map (updateRow seriesName key lang sn)) := by
  unfold DbWf at hwf ⊢
  rw [List.pairwise_map]
  refine hwf.imp ?_
  intro a b hab
  rw [(updateRow_fields seriesName key lang sn a).1,
    (updateRow_fields seriesName key lang sn a).2.1,
    (updateRow_fields seriesName key lang sn b).1,
    (updateRow_fields seriesName key lang sn b).2.1]
  exact hab

/-- C8: the season-folder mapping keeps at most one canonical folder
per (normalized name, language) pair — the uniqueness invariant is
preserved by `update_database_mapping` — and once a mapping whose
canonical folder exists is established, resolving the destination for
the same series/language returns that same canonical folder, for both
resolutions of a repeat (raw names may differ in punctuation, casing
or year as long as they normalize to the same key, and the counter
update between the two resolutions does not change the answer). -/
theorem c8_season_mapping_idempotent
    (db : List SeasonMapping) (fs : List FsDir) (lang base f1 f2 : String)
    (si1 si2 : SeriesInfo) (rec : SeasonMapping) (d : FsDir)
    (cn sp : String) (sn : Nat)
    (hwf : DbWf db)
    (hx1 : extractSeriesInfo f1 = some si1)
    (hx2 : extractSeriesInfo f2 = some si2)
    (hget : getSeasonFolderMapping db si1.seriesName lang = some rec)
    (hkey : dbNormalizeSeriesName si2.seriesName = dbNormalizeSeriesName si1.seriesName)
    (hfs : fsLookup fs rec.canonicalFolderName = some d) :
    (getUnifiedDestinationPath db fs true f1 lang base).2.canonicalName =
      some rec.canonicalFolderName ∧
    (getUnifiedDestinationPath db fs true f1 lang base).1 =
      joinPath (joinPath base rec.canonicalFolderName) (seasonFolder2 si1.seasonNumber) ∧
    (getUnifiedDestinationPath (updateDatabaseMapping db si1.seriesName lang cn sp sn)
        fs true f2 lang base).2.canonicalName = some rec.canonicalFolderName ∧
    (getUnifiedDestinationPath (updateDatabaseMapping db si1.seriesName lang cn sp sn)
        fs true f2 lang base).1 =
      joinPath (joinPath base rec.canonicalFolderName) (seasonFolder2 si2.seasonNumber) ∧
    DbWf (updateDatabaseMapping db si1.seriesName lang cn sp sn) := by
  have hfind1 : findExistingSeriesFolder db fs true si1.seriesName lang =
      some ⟨rec.canonicalFolderName, scanExistingSeasons d.subdirs, "database"⟩ := by
    simp [findExistingSeriesFolder, hget, hfs]
  have hdb2eq : updateDatabaseMapping db si1.seriesName lang cn sp sn =
      db.map (updateRow si1.seriesName (dbNormalizeSeriesName si1.seriesName) lang sn) := by
    unfold updateDatabaseMapping
    rw [hget]
  have hget2 : getSeasonFolderMapping
      (updateDatabaseMapping db si1.seriesName lang cn sp sn) si2.seriesName lang =
      some (updateRow si1.seriesName (dbNormalizeSeriesName si1.seriesName) lang sn rec) := by
    unfold getSeasonFolderMapping
    rw [hkey, hdb2eq, dbFind_map_updateRow]
    unfold getSeasonFolderMapping at hget
    rw [hget]
    rfl
  have hcanon : (updateRow si1.seriesName (dbNormalizeSeriesName si1.seriesName) lang sn
      rec).canonicalFolderName = rec.canonicalFolderName :=
    (updateRow_fields si1.seriesName (dbNormalizeSeriesName si1.seriesName) lang sn rec).2.2
  have hfind2 : findExistingSeriesFolder
      (updateDatabaseMapping db si1.seriesName lang cn sp sn) fs true si2.seriesName lang =
      some ⟨rec.canonicalFolderName, scanExistingSeasons d.subdirs, "database"⟩ := by
    simp [findExistingSeriesFolder, hget2, hcanon, hfs]
  refine ⟨?_, ?_, ?_, ?_, ?_⟩
  · simp [getUnifiedDestinationPath, hx1, hfind1]
  · simp [getUnifiedDestinationPath, hx1, hfind1]
  · simp [getUnifiedDestinationPath, hx2, hfind2]
  · simp [getUnifiedDestinationPath, hx2, hfind2]
  · rw [hdb2eq]
    exact dbWf_map_updateRow hwf si1.seriesName (dbNormalizeSeriesName si1.seriesName) lang sn

/-- C8 witness: one established mapping for ("rana naidu", "malayalam")
whose folder "Rana Naidu" exists; the raw names "Rana Naidu S02E04
Heat" and "Rana-Naidu (2023) S02E05" differ in punctuation and year
yet resolve to the identical canonical folder, before and after the
interleaved mapping update. -/
theorem c8_witness :
    (getUnifiedDestinationPath
      [⟨"rana naidu", ["Rana Naidu"], "Rana Naidu", "/tv", "malayalam", 2, 5⟩]
      [⟨"Rana Naidu", ["Season 01"]⟩] true "Rana Naidu S02E04 Heat" "malayalam"
      "/tv/malayalam").2.canonicalName = some "Rana Naidu" ∧
    (getUnifiedDestinationPath
      (updateDatabaseMapping
        [⟨"rana naidu", ["Rana Naidu"], "Rana Naidu", "/tv", "malayalam", 2, 5⟩]
        "Rana Naidu" "malayalam" "Rana Naidu" "/tv/malayalam/Rana Naidu" 2)
      [⟨"Rana Naidu", ["Season 01"]⟩] true "Rana-Naidu (2023) S02E05" "malayalam"
      "/tv/malayalam").2.canonicalName = some "Rana Naidu" := by
  have h := c8_season_mapping_idempotent
    [⟨"rana naidu", ["Rana Naidu"], "Rana Naidu", "/tv", "malayalam", 2, 5⟩]
    [⟨"Rana Naidu", ["Season 01"]⟩] "malayalam" "/tv/malayalam"
    "Rana Naidu S02E04 Heat" "Rana-Naidu (2023) S02E05"
    ⟨"Rana Naidu", 2, 4, "rana naidu"⟩ ⟨"Rana-Naidu (2023)", 2, 5, "rana naidu"⟩
    ⟨"rana naidu", ["Rana Naidu"], "Rana Naidu", "/tv", "malayalam", 2, 5⟩
    ⟨"Rana Naidu", ["Season 01"]⟩ "Rana Naidu" "/tv/malayalam/Rana Naidu" 2
    (by simp [DbWf]) (by decide) (by decide) (by decide) (by decide) (by decide)
  exact ⟨h.1, h.2.2.1⟩

/-- A site substitution with no match is the identity. -/
theorem applySite_none {m : List Char → Option (List Char)} {s : List Char}
    (h : m s = none) : applySite m s = s := by
  unfold applySite
  rw [h]

/-- A global substitution whose pattern matches nowhere is the
identity. -/
theorem subAll_succ_none {m : Option Char → List Char → Option Nat}
    {repl : List Char} {fuel : Nat} {prev : Option Char} {s : List Char}
    (h : scanFind m prev 0 s = none) : subAll m repl (fuel + 1) prev s = s := by
  unfold subAll
  rw [h]

/-- A junk substitution whose pattern matches nowhere is the
identity. -/
theorem junkSub_of_none {m : Option Char → List Char → Option Nat} {s : List Char}
    (h : scanFind m none 0 s = none) : junkSub m s = s := by
  unfold junkSub
  exact subAll_succ_none h

/-- A one-shot substitution whose pattern matches nowhere is the
identity. -/
theorem subFirst_of_none {m : Option Char → List Char → Option Nat} {s : List Char}
    (h : scanFind m none 0 s = none) : subFirst m s = s := by
  unfold subFirst
  rw [h]

/-- A character replacement is the identity when the character does
not occur. -/
theorem mapChar_id {a b : Char} : ∀ {s : List Char},
    s.all (fun c => !(c = a)) = true → mapChar a b s = s := by
  intro s h
  induction s with
  | nil => rfl
  | cons c t ih =>
    rw [List.all_cons, Bool.and_eq_true] at h
    have hc : ¬(c = a) := by simpa using h.1
    show List.map _ (c :: t) = c :: t
    rw [List.map_cons, if_neg hc]
    exact congrArg _ (ih h.2)

/-- The separator cut is the identity when none of the six separator
patterns matches. -/
theorem sepCut_of_none {s : List Char}
    (h1 : scanFind sep1At none 0 s = none) (h2 : scanFind sep2At none 0 s = none)
    (h3 : scanFind sep3At none 0 s = none) (h4 : scanFind sep4At none 0 s = none)
    (h5 : scanFind sep5At none 0 s = none) (h6 : scanFind sep6At none 0 s = none) :
    sepCut s = s := by
  unfold sepCut
  simp only [List.map_cons, List.map_nil]
  rw [h1, h2, h3, h4, h5, h6]
  rfl

/-- The release-group steps are the identity when none of the four
patterns matches. -/
theorem relSteps_of_none {s : List Char}
    (h1 : scanFind rel1At none 0 s = none) (h2 : scanFind rel2At none 0 s = none)
    (h3 : scanFind rel3At none 0 s = none) (h4 : scanFind rel4At none 0 s = none) :
    relSteps s = s := by
  unfold relSteps
  rw [subFirst_of_none h1, subFirst_of_none h2, subFirst_of_none h3, subFirst_of_none h4]

/-- The junk steps are the identity when none of their patterns
matches (and the duplicate-year substitution does nothing). -/
theorem junkSteps_id {yv : Option (List Char)} {s : List Char}
    (hjb : scanFind junkBracketAt none 0 s = none)
    (hjhq : scanFind (litWordAt "hq") none 0 s = none)
    (hjc : scanFind junkCodecAt none 0 s = none)
    (hja : scanFind junkAudioAt none 0 s = none)
    (hjk : scanFind junkKbpsAt none 0 s = none)
    (hjg : scanFind junkGbAt none 0 s = none)
    (hje : scanFind (litWordAt "esub") none 0 s = none)
    (hjw : scanFind junkWebDlAt none 0 s = none)
    (hjbl : scanFind (litWordAt "bluray") none 0 s = none)
    (hjh : scanFind (litWordAt "hdrip") none 0 s = none)
    (hjm : scanFind (litWordAt "max") none 0 s = none)
    (hjdup : dupYearOpt yv s = s)
    (hjt : scanFind junkTamilAt none 0 s = none)
    (hjs : scanFind junkSanetAt none 0 s = none)
    (hjd : scanFind junkDashAt none 0 s = none) :
    junkSteps yv s = s := by
  unfold junkSteps
  rw [junkSub_of_none hjb, junkSub_of_none hjhq, junkSub_of_none hjc, junkSub_of_none hja,
    junkSub_of_none hjk, junkSub_of_none hjg, junkSub_of_none hje, junkSub_of_none hjw,
    junkSub_of_none hjbl, junkSub_of_none hjh, junkSub_of_none hjm, hjdup,
    junkSub_of_none hjt, junkSub_of_none hjs, junkSub_of_none hjd]

/-- A name part on which every removal step of `_clean_filename_basic`
is inert: no site prefix, no punctuation runs, no separator,
release-group, junk or duplicate-year match, already
whitespace-normalized, no removable parenthetical, at least 3
characters, and (when a year was extracted) its digits present so the
re-append step does nothing. -/
def cleanStable (n : List Char) : Bool :=
  decide (siteSanetSt n = none) &&
  (decide (siteSanetAny n = none) &&
  (decide (siteTamilWww n = none) &&
  (decide (siteTamilOrg n = none) &&
  (decide (siteTamilBare n = none) &&
  (decide (siteWwwDots n = none) &&
  (decide (siteWwwWords n = none) &&
  (decide (siteBracket ["tamilmv", "sanet", "rarbg", "yts"] n = none) &&
  (decide (siteNamed n = none) &&
  (decide (scanFind (runAt '_') none 0 n = none) &&
  (decide (scanFind (runAt '.') none 0 n = none) &&
  (n.all (fun c => !(c = '_')) &&
  (n.all (fun c => !(c = '.')) &&
  (decide (scanFind sep1At none 0 n = none) &&
  (decide (scanFind sep2At none 0 n = none) &&
  (decide (scanFind sep3At none 0 n = none) &&
  (decide (scanFind sep4At none 0 n = none) &&
  (decide (scanFind sep5At none 0 n = none) &&
  (decide (scanFind sep6At none 0 n = none) &&
  (decide (scanFind rel1At none 0 n = none) &&
  (decide (scanFind rel2At none 0 n = none) &&
  (decide (scanFind rel3At none 0 n = none) &&
  (decide (scanFind rel4At none 0 n = none) &&
  (decide (scanFind junkBracketAt none 0 n = none) &&
  (decide (scanFind (litWordAt "hq") none 0 n = none) &&
  (decide (scanFind junkCodecAt none 0 n = none) &&
  (decide (scanFind junkAudioAt none 0 n = none) &&
  (decide (scanFind junkKbpsAt none 0 n = none) &&
  (decide (scanFind junkGbAt none 0 n = none) &&
  (decide (scanFind (litWordAt "esub") none 0 n = none) &&
  (decide (scanFind junkWebDlAt none 0 n = none) &&
  (decide (scanFind (litWordAt "bluray") none 0 n = none) &&
  (decide (scanFind (litWordAt "hdrip") none 0 n = none) &&
  (decide (scanFind (litWordAt "max") none 0 n = none) &&
  (decide (dupYearOpt (yearOf n) n = n) &&
  (decide (scanFind junkTamilAt none 0 n = none) &&
  (decide (scanFind junkSanetAt none 0 n = none) &&
  (decide (scanFind junkDashAt none 0 n = none) &&
  (decide (collapseStrip n = n) &&
  (decide (stripWs n = n) &&
  (decide (scanFind parenAt none 0 n = none) &&
  (decide (3 ≤ n.length) &&
  ((match yearOf n with
   | some y => containsSub y n
   | none => true)))))))))))))))))))))))))))))))))))))))))))

/-- Cleaning a filename whose name part is stable is the identity. -/
theorem cleanFilenameBasicL_of_stable {n e : List Char}
    (hsplit : splitExt (n ++ e) = (n, e)) (hstable : cleanStable n = true) :
    cleanFilenameBasicL (n ++ e) = n ++ e := by
  obtain ⟨hs1, hs2, hs3, hs4, hs5, hs6, hs7, hs8, hs9, hrU, hrD, hmU, hmD,
    hp1, hp2, hp3, hp4, hp5, hp6, hq1, hq2, hq3, hq4,
    hjb, hjhq, hjc, hja, hjk, hjg, hje, hjw, hjbl, hjh, hjm, hjdup, hjt, hjs, hjd,
    hcol, hstr, hpar, hlen, hyear⟩ :=
    by simpa only [cleanStable, Bool.and_eq_true, decide_eq_true_eq] using hstable
  have hsites : stripSiteTags n = n := by
    unfold stripSiteTags
    rw [applySite_none hs1, applySite_none hs2, applySite_none hs3, applySite_none hs4,
      applySite_none hs5, applySite_none hs6, applySite_none hs7, applySite_none hs8,
      applySite_none hs9]
  have hjunks : junkSteps (yearOf n) n = n :=
    junkSteps_id hjb hjhq hjc hja hjk hjg hje hjw hjbl hjh hjm hjdup hjt hjs hjd
  have hbody : cleanBody (yearOf n) n = n := by
    unfold cleanBody lenGuard
    rw [hsites, junkSub_of_none hrU, junkSub_of_none hrD, mapChar_id hmU, mapChar_id hmD,
      sepCut_of_none hp1 hp2 hp3 hp4 hp5 hp6, relSteps_of_none hq1 hq2 hq3 hq4,
      hjunks, hcol]
    unfold parenStep
    rw [subAll_succ_none hpar, hstr, hcol]
    rw [if_neg (by omega)]
  have happend : yearAppendStep (yearOf n) n = n := by
    cases hyv : yearOf n with
    | none => rfl
    | some y =>
      rw [hyv] at hyear
      have hc : containsSub y n = true := by simpa using hyear
      unfold yearAppendStep
      dsimp only
      rw [if_pos (by simp [hc])]
  have hcore : cleanCore (yearOf n) n = n := by
    unfold cleanCore
    rw [hbody, happend]
  unfold cleanFilenameBasicL
  rw [hsplit]
  dsimp only
  rw [hcore]
  split <;> rfl

/-- C3 counterexample: the cleaning function is not idempotent.  On
"Abc.1080p.BluRay.mkv" the first pass cuts at the `BluRay` quality
separator (tried before the resolution separator), leaving the
resolution token, which a second pass then removes. -/
theorem c3_counterexample_clean_not_idempotent :
    cleanFilenameBasic "Abc.1080p.BluRay.mkv" = "Abc 1080p.mkv" ∧
    cleanFilenameBasic (cleanFilenameBasic "Abc.1080p.BluRay.mkv") = "Abc.mkv" ∧
    cleanFilenameBasic (cleanFilenameBasic "Abc.1080p.BluRay.mkv") ≠
      cleanFilenameBasic "Abc.1080p.BluRay.mkv" := by
  decide

/-- C3 amended: re-cleaning is a no-op exactly when the once-cleaned
result triggers none of the removal steps — if `clean(x)` splits into
a stable name part and extension, then `clean(clean(x)) = clean(x)`;
in general a second pass may remove further technical tokens, as the
counterexample shows. -/
theorem c3_amended_clean_noop_on_stable_titles (x n e : List Char)
    (hx : cleanFilenameBasicL x = n ++ e)
    (hsplit : splitExt (n ++ e) = (n, e))
    (hstable : cleanStable n = true) :
    cleanFilenameBasicL (cleanFilenameBasicL x) = cleanFilenameBasicL x := by
  rw [hx]
  exact cleanFilenameBasicL_of_stable hsplit hstable

/-- C3 witness: "Good Title.mkv" cleans to itself and is stable, so a
second cleaning changes nothing. -/
theorem c3_amended_witness :
    cleanFilenameBasicL (strL "Good Title.mkv") = strL "Good Title" ++ strL ".mkv" ∧
    cleanStable (strL "Good Title") = true ∧
    cleanFilenameBasicL (cleanFilenameBasicL (strL "Good Title.mkv")) =
      cleanFilenameBasicL (strL "Good Title.mkv") :=
  ⟨by decide, by decide,
    c3_amended_clean_noop_on_stable_titles (strL "Good Title.mkv") (strL "Good Title")
      (strL ".mkv") (by decide) (by decide) (by decide)⟩

/-- Characters allowed in the series-name part for the extraction
analysis: a letter other than `S`/`s`, or a space. -/
def goodC (c : Char) : Bool :=
  (isAlphaC c && !(['S', 's'] : List Char).contains c) || c = ' '

/-- No two adjacent spaces and no trailing space. -/
def seriesShape : List Char → Bool
  | [] => true
  | [c] => !isSpaceC c
  | c :: d :: t => (!isSpaceC c || !isSpaceC d) && seriesShape (d :: t)

/-- A good character is a non-`S` letter or a space. -/
theorem goodC_cases {c : Char} (h : goodC c = true) :
    (isAlphaC c = true ∧ (['S', 's'] : List Char).contains c = false) ∨ c = ' ' := by
  simp only [goodC, Bool.or_eq_true, Bool.and_eq_true, Bool.not_eq_true',
    decide_eq_true_eq] at h
  exact h

/-- Letters are not whitespace. -/
theorem alpha_not_space {c : Char} (h : isAlphaC c = true) : isSpaceC c = false := by
  cases hs : isSpaceC c
  · rfl
  · exfalso
    simp only [isSpaceC, Bool.or_eq_true, decide_eq_true_eq] at hs
    rcases hs with ((((h1 | h1) | h1) | h1) | h1) | h1 <;> subst h1 <;>
      exact absurd h (by decide)

/-- The shape condition passes to the tail. -/
theorem seriesShape_tail {c : Char} {m : List Char} (h : seriesShape (c :: m) = true) :
    seriesShape m = true := by
  cases m with
  | nil => rfl
  | cons d t =>
    simp only [seriesShape, Bool.and_eq_true] at h
    exact h.2

/-- The `SxxEyy` tag fails at every split point strictly inside a
well-shaped series name, whatever follows it: at a non-space character
the mandatory `\s+` fails, and after a space the next character is a
non-`S` letter. -/
theorem seTag_mid_none {c : Char} {m' T : List Char}
    (hc : goodC c = true) (hm : ∀ x ∈ m', goodC x = true)
    (hsh : seriesShape (c :: m') = true) :
    seTagWith ['S', 's'] ['E', 'e'] false (c :: (m' ++ T)) = none := by
  rcases goodC_cases hc with hns | hsp
  · have hcs : isSpaceC c = false := alpha_not_space hns.1
    simp [seTagWith, dropPlus, hcs]
  · subst hsp
    cases m' with
    | nil => simp [seriesShape, isSpaceC] at hsh
    | cons d t' =>
      have hd : goodC d = true := hm d (by simp)
      have hds : isSpaceC d = false := by
        simp only [seriesShape, Bool.and_eq_true, Bool.or_eq_true] at hsh
        rcases hsh.1 with h | h
        · exact absurd h (by decide)
        · simpa using h
      rcases goodC_cases hd with hdd | hdsp
      · have hcont : ¬(d = 'S' ∨ d = 's') := by simpa using hdd.2
        have hsp : isSpaceC ' ' = true := by decide
        simp [seTagWith, dropPlus, dropRun, dropOneOf, hsp, hds, hcont]
      · subst hdsp
        exact absurd hds (by decide)

/-- The `SxxEyy` tag succeeds on ` Sab Ecd rest` with a well-formed
tail, returning the two two-digit groups. -/
theorem seTag_at_sep {a b c d : Char} {t : List Char}
    (ha : isDigitC a = true) (hb : isDigitC b = true)
    (hc : isDigitC c = true) (hd : isDigitC d = true)
    (ht : tailOkB t = true) :
    seTagWith ['S', 's'] ['E', 'e'] false
      (' ' :: 'S' :: a :: b :: 'E' :: c :: d :: t) = some ([a, b], [c, d]) := by
  simp [seTagWith, dropPlus, dropRun, dropOneOf, dig12, isSpaceC,
    ha, hb, hc, hd, ht, firstSome]

/-- The first disjunct of an alternation decides it when it matches. -/
theorem firstSome_cons_some {α : Type} (a : α) (l : List (Option α)) :
    firstSome (some a :: l) = some a := rfl

/-- One step of the lazy scan on a nonempty input. -/
theorem scanSplit_cons {tag : List Char → Option (List Char × List Char)}
    {acc : List Char} {c : Char} {t : List Char} :
    scanSplit tag acc (c :: t) =
      match tag (c :: t) with
      | some (a, b) => some (acc.reverse, a, b)
      | none => scanSplit tag (c :: acc) t := rfl

/-- The lazy scan over `name ++ tail` with a tag that fails strictly
inside the well-shaped name and fires at its end splits exactly at the
boundary. -/
theorem scanSplit_locate {tag : List Char → Option (List Char × List Char)}
    {T0 xx yy : List Char} (htagT : tag (' ' :: T0) = some (xx, yy))
    (hmid : ∀ (c : Char) (m' : List Char), goodC c = true →
      (∀ x ∈ m', goodC x = true) → seriesShape (c :: m') = true →
      tag (c :: (m' ++ (' ' :: T0))) = none) :
    ∀ (m acc : List Char), (∀ x ∈ m, goodC x = true) → seriesShape m = true →
      scanSplit tag acc (m ++ (' ' :: T0)) = some (acc.reverse ++ m, xx, yy) := by
  intro m
  induction m with
  | nil =>
    intro acc _ _
    simp only [List.nil_append]
    rw [scanSplit_cons, htagT]
    simp
  | cons c m' ih =>
    intro acc hgood hsh
    have hc : goodC c = true := hgood c (by simp)
    have hm' : ∀ x ∈ m', goodC x = true := fun x hx => hgood x (by simp [hx])
    simp only [List.cons_append]
    rw [scanSplit_cons, hmid c m' hc hm' hsh]
    dsimp only
    rw [ih (c :: acc) hm' (seriesShape_tail hsh)]
    simp

/-- C4 counterexample: on "Dune 2024 S01E01 Part.mkv" the extractor
returns series "Dune", not "Dune 2024" — the trailing-year cleanup
`\s*\d{4}$` deletes a 4-digit token that is part of the title, so the
claimed universal form does not hold for every `Name SxxEyy` input. -/
theorem c4_counterexample_trailing_year_mangles_name :
    extractSeriesNameAndEpisode "Dune 2024 S01E01 Part.mkv" =
      ("Dune", some "01", some "01") ∧
    ("Dune" : String) ≠ "Dune 2024" := by
  decide

/-- C4 amended: for a series name of letters (no `S`/`s`) and single
interior spaces, with the name inert under the trailing-token cleanups
and the basic cleaner, the extractor on `name Sab Ecd tail.mkv` returns
exactly the name and the two zero-padded digit pairs. -/
theorem c4_amended_sxxeyy_extraction
    (n : List Char) (a b c d : Char) (t : List Char)
    (hgood : ∀ x ∈ n, goodC x = true) (hshape : seriesShape n = true)
    (ha : isDigitC a = true) (hb : isDigitC b = true)
    (hc : isDigitC c = true) (hd : isDigitC d = true)
    (ht : tailOkB t = true)
    (hsplit : splitExt ((n ++ ' ' :: 'S' :: a :: b :: 'E' :: c :: d :: t) ++ strL ".mkv")
      = (n ++ ' ' :: 'S' :: a :: b :: 'E' :: c :: d :: t, strL ".mkv"))
    (hsites : exStripSites (n ++ ' ' :: 'S' :: a :: b :: 'E' :: c :: d :: t)
      = n ++ ' ' :: 'S' :: a :: b :: 'E' :: c :: d :: t)
    (hmap : mapChar '.' ' ' (n ++ ' ' :: 'S' :: a :: b :: 'E' :: c :: d :: t)
      = n ++ ' ' :: 'S' :: a :: b :: 'E' :: c :: d :: t)
    (hstrip : stripWs (n ++ ' ' :: 'S' :: a :: b :: 'E' :: c :: d :: t)
      = n ++ ' ' :: 'S' :: a :: b :: 'E' :: c :: d :: t)
    (hstripn : stripWs n = n)
    (htc : trimTrailClass isSdotUDash n = n)
    (htp : trimTrailParenYear n = n)
    (hty : trimTrailYear n = n)
    (hsplit2 : splitExt (n ++ strL ".temp") = (n, strL ".temp"))
    (hstable : cleanStable n = true)
    (hrepl : replaceAll (strL ".temp") [] (n ++ strL ".temp") = n) :
    extractSeriesNameAndEpisodeL
        ((n ++ ' ' :: 'S' :: a :: b :: 'E' :: c :: d :: t) ++ strL ".mkv")
      = (n, some [a, b], some [c, d]) := by
  have hloc := scanSplit_locate (seTag_at_sep ha hb hc hd ht)
    (fun c' m' h1 h2 h3 => seTag_mid_none h1 h2 h3) n [] hgood hshape
  have h1 : exCleanInput ((n ++ ' ' :: 'S' :: a :: b :: 'E' :: c :: d :: t) ++ strL ".mkv")
      = n ++ ' ' :: 'S' :: a :: b :: 'E' :: c :: d :: t := by
    unfold exCleanInput
    rw [hsplit]
    dsimp only
    rw [hsites, hmap, hstrip]
  have h2 : exCascade (n ++ ' ' :: 'S' :: a :: b :: 'E' :: c :: d :: t)
      = some (n, [a, b], [c, d]) := by
    unfold exCascade
    rw [hloc, firstSome_cons_some]
    simp
  have h3 : exPolish n = n := by
    unfold exPolish
    rw [hstripn, htc, htp, hstripn, hty, hstripn,
      cleanFilenameBasicL_of_stable hsplit2 hstable, hrepl]
  unfold extractSeriesNameAndEpisodeL
  rw [h1, h2]
  dsimp only
  rw [h3]
  simp [zfill2]

/-- C4 witness: "Rana Naidu" satisfies every side condition, the
amended theorem applies at `Rana Naidu S02E04 Heat.mkv`, and the
site-prefixed example from the specification extracts as claimed. -/
theorem c4_amended_witness :
    (∀ x ∈ strL "Rana Naidu", goodC x = true) ∧
    extractSeriesNameAndEpisodeL
        ((strL "Rana Naidu" ++ ' ' :: 'S' :: '0' :: '2' :: 'E' :: '0' :: '4' :: strL " Heat")
          ++ strL ".mkv")
      = (strL "Rana Naidu", some ['0', '2'], some ['0', '4']) ∧
    extractSeriesNameAndEpisode "www.1TamilMV.boo - Rana Naidu S02E04 Heat.mkv"
      = ("Rana Naidu", some "02", some "04") :=
  ⟨by decide,
    c4_amended_sxxeyy_extraction (strL "Rana Naidu") '0' '2' '0' '4' (strL " Heat")
      (by decide) (by decide) (by decide) (by decide) (by decide) (by decide) (by decide)
      (by decide) (by decide) (by decide) (by decide) (by decide) (by decide) (by decide)
      (by decide) (by decide) (by decide) (by decide),
    by decide⟩
